import Mathlib

/-!
Verification of the MPA repository MCP server wrapper (`mcp_server.py`).

This file gives a shallow embedding of the Python code: JSON values are an
inductive type, `json.loads` is modelled by a fueled recursive-descent
parser, Python strings are lists of characters, exceptions are the
`Except String` monad, and the backend subprocess is modelled by an
explicit outcome value (timeout, or exit code plus captured streams).
Each operation additionally reports the list of subprocess invocations it
performed, so that spawning behaviour can be stated.
-/

set_option maxRecDepth 10000

/-- A Python string modelled as a list of characters. -/
abbrev Line := List Char

/-- JSON values as produced by `json.loads`.  Numeric literals keep their
source token (the code never does arithmetic on parsed numbers), and
objects are key-value lists in insertion order with duplicate keys
collapsed, mirroring Python dicts. -/
inductive Json where
  | null : Json
  | bool (b : Bool) : Json
  | num (token : String) : Json
  | str (s : String) : Json
  | arr (elems : List Json) : Json
  | obj (fields : List (String × Json)) : Json

/-- Whitespace characters stripped by Python `str.strip()`. -/
def isPyWs (c : Char) : Bool :=
  c = ' ' || c = '\t' || c = '\n' || c = '\r' || c = '\x0b' || c = '\x0c'

/-- Whitespace characters skipped by the `json` module between tokens. -/
def isJsonWs (c : Char) : Bool :=
  c = ' ' || c = '\t' || c = '\n' || c = '\r'

/-- Drop JSON inter-token whitespace. -/
def skipJsonWs (cs : Line) : Line := cs.dropWhile isJsonWs

/-- First character of a Python string that is not `str.strip` whitespace. -/
def firstNonPyWs (cs : Line) : Option Char := (cs.dropWhile isPyWs).head?

/-- Python `str.strip()` on a line (both ends). -/
def pyStripL (l : Line) : Line :=
  ((l.dropWhile isPyWs).reverse.dropWhile isPyWs).reverse

/-- Boolean prefix test on character lists. -/
def isPrefixL : Line → Line → Bool
  | [], _ => true
  | _ :: _, [] => false
  | a :: as, b :: bs => a = b && isPrefixL as bs

/-- Boolean substring test on character lists. -/
def hasSubstrL (needle : Line) : Line → Bool
  | [] => isPrefixL needle []
  | c :: rest => isPrefixL needle (c :: rest) || hasSubstrL needle rest

/-- Split a character list at every occurrence of a separator character,
keeping empty pieces, like Python `str.split(sep)`. -/
def splitChar (sep : Char) : Line → List Line
  | [] => [[]]
  | c :: rest =>
    match splitChar sep rest with
    | [] => if c = sep then [[], []] else [[c]]
    | h :: t => if c = sep then [] :: h :: t else (c :: h) :: t

/-- The lines of a Python string, as produced by `output.split(chr(10))`. -/
def linesOf (s : String) : List Line := splitChar '\n' s.data

/-- Concatenation of lines with the empty separator, Python `join`. -/
def concatLines (ls : List Line) : Line := ls.foldr (fun l acc => l ++ acc) []

/-- `line.strip().startswith` an opening brace. -/
def lineStartsBrace (l : Line) : Bool := isPrefixL ['{'] (pyStripL l)

/-- `line.strip().endswith` a closing brace. -/
def lineEndsBrace (l : Line) : Bool := isPrefixL ['}'] (pyStripL l).reverse

/-- Try to drop a literal character sequence from the front of the input. -/
def dropSeq : Line → Line → Option Line
  | [], cs => some cs
  | _ :: _, [] => none
  | p :: ps, c :: cs => if c = p then dropSeq ps cs else none

/-- Value of a hexadecimal digit. -/
def hexVal (c : Char) : Option Nat :=
  if '0' ≤ c && c ≤ '9' then some (c.toNat - 48)
  else if 'a' ≤ c && c ≤ 'f' then some (c.toNat - 87)
  else if 'A' ≤ c && c ≤ 'F' then some (c.toNat - 55)
  else none

/-- Body of a JSON string literal, after the opening quote.  Returns the
decoded characters and the rest of the input.  Strict mode: unescaped
control characters are rejected, matching `json.loads` defaults. -/
def parseJStringAux : Line → Line → Option (Line × Line)
  | [], _ => none
  | '"' :: rest, acc => some (acc, rest)
  | '\\' :: rest, acc =>
    match rest with
    | [] => none
    | e :: rest2 =>
      if e = '"' then parseJStringAux rest2 (acc ++ ['"'])
      else if e = '\\' then parseJStringAux rest2 (acc ++ ['\\'])
      else if e = '/' then parseJStringAux rest2 (acc ++ ['/'])
      else if e = 'b' then parseJStringAux rest2 (acc ++ ['\x08'])
      else if e = 'f' then parseJStringAux rest2 (acc ++ ['\x0c'])
      else if e = 'n' then parseJStringAux rest2 (acc ++ ['\n'])
      else if e = 'r' then parseJStringAux rest2 (acc ++ ['\r'])
      else if e = 't' then parseJStringAux rest2 (acc ++ ['\t'])
      else if e = 'u' then
        match rest2 with
        | h1 :: h2 :: h3 :: h4 :: rest3 =>
          match hexVal h1, hexVal h2, hexVal h3, hexVal h4 with
          | some a, some b, some c, some d =>
            parseJStringAux rest3 (acc ++ [Char.ofNat (a * 4096 + b * 256 + c * 16 + d)])
          | _, _, _, _ => none
        | _ => none
      else none
  | c :: rest, acc =>
    if c.toNat < 32 then none else parseJStringAux rest (acc ++ [c])

/-- JSON string literal after the opening quote. -/
def parseJString (cs : Line) : Option (String × Line) :=
  (parseJStringAux cs []).map (fun p => (String.mk p.1, p.2))

/-- Longest run of decimal digits at the front of the input. -/
def takeDigits (cs : Line) : Line × Line :=
  (cs.takeWhile Char.isDigit, cs.dropWhile Char.isDigit)

/-- Integer part of a JSON number: `0` or a nonzero digit followed by
digits, per the `json` module number regular expression. -/
def parseIntPart : Line → Option (Line × Line)
  | [] => none
  | c :: rest =>
    if c = '0' then some (['0'], rest)
    else if c.isDigit then
      match takeDigits rest with
      | (ds, rest2) => some (c :: ds, rest2)
    else none

/-- Optional fraction part `.digits`; consumes nothing when absent. -/
def parseFracPart : Line → Line × Line
  | '.' :: rest =>
    match takeDigits rest with
    | ([], _) => ([], '.' :: rest)
    | (ds, rest2) => ('.' :: ds, rest2)
  | cs => ([], cs)

/-- Optional exponent part; consumes nothing when absent. -/
def parseExpPart : Line → Line × Line
  | e :: rest =>
    if e = 'e' || e = 'E' then
      match rest with
      | s :: rest2 =>
        if s = '+' || s = '-' then
          match takeDigits rest2 with
          | ([], _) => ([], e :: rest)
          | (ds, rest3) => (e :: s :: ds, rest3)
        else
          match takeDigits rest with
          | ([], _) => ([], e :: rest)
          | (ds, rest3) => (e :: ds, rest3)
      | [] => ([], [e])
    else ([], e :: rest)
  | [] => ([], [])

/-- JSON number token (maximal match of the number regular expression). -/
def parseNumber (cs : Line) : Option (Json × Line) :=
  match cs with
  | '-' :: rest =>
    match parseIntPart rest with
    | none => none
    | some (ip, rest2) =>
      match parseFracPart rest2 with
      | (fp, rest3) =>
        match parseExpPart rest3 with
        | (ep, rest4) => some (Json.num (String.mk ('-' :: ip ++ fp ++ ep)), rest4)
  | _ =>
    match parseIntPart cs with
    | none => none
    | some (ip, rest2) =>
      match parseFracPart rest2 with
      | (fp, rest3) =>
        match parseExpPart rest3 with
        | (ep, rest4) => some (Json.num (String.mk (ip ++ fp ++ ep)), rest4)

/-- Keywords and numbers: the non-composite JSON values, including the
`NaN` and `Infinity` constants accepted by `json.loads` by default. -/
def parseAtom (cs : Line) : Option (Json × Line) :=
  match dropSeq ['t', 'r', 'u', 'e'] cs with
  | some r => some (Json.bool true, r)
  | none =>
  match dropSeq ['f', 'a', 'l', 's', 'e'] cs with
  | some r => some (Json.bool false, r)
  | none =>
  match dropSeq ['n', 'u', 'l', 'l'] cs with
  | some r => some (Json.null, r)
  | none =>
  match dropSeq ['N', 'a', 'N'] cs with
  | some r => some (Json.num ("NaN"), r)
  | none =>
  match dropSeq ['I', 'n', 'f', 'i', 'n', 'i', 't', 'y'] cs with
  | some r => some (Json.num ("Infinity"), r)
  | none =>
  match dropSeq ['-', 'I', 'n', 'f', 'i', 'n', 'i', 't', 'y'] cs with
  | some r => some (Json.num ("-Infinity"), r)
  | none => parseNumber cs

/-- Insert a key into an object under construction, replacing an existing
binding in place, like assignment into a Python dict. -/
def assocSet {α : Type} : List (String × α) → String → α → List (String × α)
  | [], k, v => [(k, v)]
  | (k0, v0) :: rest, k, v =>
    if k0 = k then (k, v) :: rest else (k0, v0) :: assocSet rest k v

/-- Lookup in an association list with string keys. -/
def assocLookup {α : Type} : List (String × α) → String → Option α
  | [], _ => none
  | (k0, v0) :: rest, k => if k0 = k then some v0 else assocLookup rest k

mutual

/-- One JSON value, after skipping leading whitespace. -/
def parseValue : Nat → Line → Option (Json × Line)
  | 0, _ => none
  | fuel + 1, cs =>
    match skipJsonWs cs with
    | [] => none
    | c :: rest =>
      if c = '{' then (parseObjBody fuel rest).map (fun p => (Json.obj p.1, p.2))
      else if c = '[' then (parseArrBody fuel rest).map (fun p => (Json.arr p.1, p.2))
      else if c = '"' then (parseJString rest).map (fun p => (Json.str p.1, p.2))
      else parseAtom (c :: rest)

/-- Object body after the opening brace. -/
def parseObjBody : Nat → Line → Option (List (String × Json) × Line)
  | 0, _ => none
  | fuel + 1, cs =>
    match skipJsonWs cs with
    | [] => none
    | c :: rest =>
      if c = '}' then some ([], rest)
      else parseMembers fuel (c :: rest) []

/-- Members of an object: string key, colon, value, then comma or brace. -/
def parseMembers : Nat → Line → List (String × Json) → Option (List (String × Json) × Line)
  | 0, _, _ => none
  | fuel + 1, cs, acc =>
    match skipJsonWs cs with
    | [] => none
    | c :: rest =>
      if c = '"' then
        match parseJString rest with
        | none => none
        | some (key, cs2) =>
          match skipJsonWs cs2 with
          | [] => none
          | c2 :: cs3 =>
            if c2 = ':' then
              match parseValue fuel cs3 with
              | none => none
              | some (v, cs4) =>
                match skipJsonWs cs4 with
                | [] => none
                | c3 :: cs5 =>
                  if c3 = ',' then parseMembers fuel cs5 (assocSet acc key v)
                  else if c3 = '}' then some (assocSet acc key v, cs5)
                  else none
            else none
      else none

/-- Array body after the opening bracket. -/
def parseArrBody : Nat → Line → Option (List Json × Line)
  | 0, _ => none
  | fuel + 1, cs =>
    match skipJsonWs cs with
    | [] => none
    | c :: rest =>
      if c = ']' then some ([], rest)
      else parseElems fuel (c :: rest) []

/-- Elements of an array: value, then comma or bracket. -/
def parseElems : Nat → Line → List Json → Option (List Json × Line)
  | 0, _, _ => none
  | fuel + 1, cs, acc =>
    match parseValue fuel cs with
    | none => none
    | some (v, cs2) =>
      match skipJsonWs cs2 with
      | [] => none
      | c :: cs3 =>
        if c = ',' then parseElems fuel cs3 (acc ++ [v])
        else if c = ']' then some (acc ++ [v], cs3)
        else none

end

/-- Model of Python `json.loads` on a character list: parse one value and
require only whitespace to remain. -/
def jsonLoads (cs : Line) : Option Json :=
  match parseValue (4 * cs.length + 4) cs with
  | none => none
  | some (j, rest) => if skipJsonWs rest = [] then some j else none

/-- Python membership test `k in result` on a parsed JSON value: key
membership for dicts, element equality for lists, substring for strings,
`TypeError` otherwise. -/
def pyIn (k : String) : Json → Except String Bool
  | .obj fs => .ok (assocLookup fs k).isSome
  | .arr xs => .ok (xs.any (fun x => match x with | .str s => s = k | _ => false))
  | .str s => .ok (hasSubstrL k.data s.data)
  | .null => .error ("argument of type NoneType is not iterable")
  | .bool _ => .error ("argument of type bool is not iterable")
  | .num _ => .error ("argument of type int or float is not iterable")

/-- The shape test applied to a candidate JSON block, from the
`request_type` conditionals in `_extract_json_from_output` (lines
303-305): a listing must contain a `tools` key, a call result must
contain `success` or `error` (evaluated left to right, short-circuit),
any other request type rejects every block. -/
def shapeMatch (requestType : String) (result : Json) : Except String Bool :=
  if requestType = "tools/list" then pyIn ("tools") result
  else if requestType = "tools/call" then
    match pyIn ("success") result with
    | .error e => .error e
    | .ok true => .ok true
    | .ok false => pyIn ("error") result
  else .ok false

/-- The line-scanning loop of `MCPBackend._extract_json_from_output`
(lines 291-313).  State: the remaining lines, the `in_json` flag and the
accumulated `json_lines`.  A line whose stripped form starts with an
opening brace restarts accumulation; afterwards every line is appended,
and when a line ends with a closing brace and the accumulated text parses
as JSON the shape test either returns the block, raises, or discards it
and resumes scanning. -/
def extractScanGo (requestType : String) : List Line → Bool → List Line → Except String (Option Json)
  | [], _, _ => .ok none
  | l :: rest, inJson, acc =>
    if lineStartsBrace l then extractScanGo requestType rest true [l]
    else if inJson then
      let acc2 := acc ++ [l]
      if lineEndsBrace l then
        match jsonLoads (concatLines acc2) with
        | some result =>
          match shapeMatch requestType result with
          | .error e => .error e
          | .ok true => .ok (some result)
          | .ok false => extractScanGo requestType rest false []
        | none => extractScanGo requestType rest true acc2
      else extractScanGo requestType rest true acc2
    else extractScanGo requestType rest inJson acc

/-- The six-entry static fallback tools list returned by
`_extract_json_from_output` for listing requests when no JSON block is
found (lines 316-326). -/
def fallbackToolsJson : Json :=
  Json.obj [("tools", Json.arr [
    Json.obj [("name", Json.str ("expr_predictor_obj_func")),
      ("description", Json.str ("Compute objective function value for ExprPredictor with given parameters"))],
    Json.obj [("name", Json.str ("expr_par_get_free_pars")),
      ("description", Json.str ("Extract free parameters from ExprPar object"))],
    Json.obj [("name", Json.str ("expr_predictor_train")),
      ("description", Json.str ("Train ExprPredictor model with given data"))],
    Json.obj [("name", Json.str ("expr_predictor_predict")),
      ("description", Json.str ("Predict expression values using trained ExprPredictor"))],
    Json.obj [("name", Json.str ("expr_par_load")),
      ("description", Json.str ("Load ExprPar parameters from file"))],
    Json.obj [("name", Json.str ("expr_func_predict_expr")),
      ("description", Json.str ("Predict expression using ExprFunc"))]])]

/-- The generic failure payload returned for call requests when no JSON
block is found (line 328). -/
def genericCallFailure : Json :=
  Json.obj [("success", Json.bool false), ("error", Json.str ("Could not parse backend response"))]

/-- `MCPBackend._extract_json_from_output` (lines 285-328): split the
output on newlines, run the scanning loop, and fall back to the static
response when no qualifying block was found. -/
def extract_json_from_output (output : String) (requestType : String) : Except String Json :=
  match extractScanGo requestType (linesOf output) false [] with
  | .error e => .error e
  | .ok (some result) => .ok result
  | .ok none =>
    if requestType = "tools/list" then .ok fallbackToolsJson
    else .ok genericCallFailure

/-- The static schema table of `MCPBackend._get_tool_schema`
(lines 167-248), keyed by tool name. -/
def schemasTable : List (String × Json) :=
  [("expr_predictor_obj_func", Json.obj [
      ("name", Json.str ("expr_predictor_obj_func")),
      ("description", Json.str ("Compute objective function value for ExprPredictor with given parameters")),
      ("inputSchema", Json.obj [
        ("type", Json.str ("object")),
        ("properties", Json.obj [
          ("parameters", Json.obj [("type", Json.str ("object")),
            ("description", Json.str ("ExprPar parameters object"))])]),
        ("required", Json.arr [Json.str ("parameters")])])]),
   ("expr_par_get_free_pars", Json.obj [
      ("name", Json.str ("expr_par_get_free_pars")),
      ("description", Json.str ("Extract free parameters from ExprPar object")),
      ("inputSchema", Json.obj [
        ("type", Json.str ("object")),
        ("properties", Json.obj [
          ("parameters", Json.obj [("type", Json.str ("object")),
            ("description", Json.str ("ExprPar parameters object"))]),
          ("coopMat", Json.obj [("type", Json.str ("object")),
            ("description", Json.str ("Cooperativity matrix"))]),
          ("actIndicators", Json.obj [("type", Json.str ("array")),
            ("description", Json.str ("Activator indicators"))]),
          ("repIndicators", Json.obj [("type", Json.str ("array")),
            ("description", Json.str ("Repressor indicators"))])]),
        ("required", Json.arr [Json.str ("parameters"), Json.str ("coopMat"),
          Json.str ("actIndicators"), Json.str ("repIndicators")])])]),
   ("expr_predictor_train", Json.obj [
      ("name", Json.str ("expr_predictor_train")),
      ("description", Json.str ("Train ExprPredictor model with given data")),
      ("inputSchema", Json.obj [
        ("type", Json.str ("object")),
        ("properties", Json.obj [
          ("initialParameters", Json.obj [("type", Json.str ("object")),
            ("description", Json.str ("Initial ExprPar parameters"))]),
          ("trainingData", Json.obj [("type", Json.str ("object")),
            ("description", Json.str ("Training dataset"))]),
          ("options", Json.obj [("type", Json.str ("object")),
            ("description", Json.str ("Training options"))])]),
        ("required", Json.arr [Json.str ("initialParameters"), Json.str ("trainingData")])])]),
   ("expr_predictor_predict", Json.obj [
      ("name", Json.str ("expr_predictor_predict")),
      ("description", Json.str ("Predict expression values using trained ExprPredictor")),
      ("inputSchema", Json.obj [
        ("type", Json.str ("object")),
        ("properties", Json.obj [
          ("parameters", Json.obj [("type", Json.str ("object")),
            ("description", Json.str ("Trained ExprPar parameters"))]),
          ("sequences", Json.obj [("type", Json.str ("array")),
            ("description", Json.str ("Input sequences for prediction"))]),
          ("conditions", Json.obj [("type", Json.str ("array")),
            ("description", Json.str ("Experimental conditions"))])]),
        ("required", Json.arr [Json.str ("parameters"), Json.str ("sequences")])])]),
   ("expr_par_load", Json.obj [
      ("name", Json.str ("expr_par_load")),
      ("description", Json.str ("Load ExprPar parameters from file")),
      ("inputSchema", Json.obj [
        ("type", Json.str ("object")),
        ("properties", Json.obj [
          ("filename", Json.obj [("type", Json.str ("string")),
            ("description", Json.str ("Path to parameter file"))]),
          ("coopMat", Json.obj [("type", Json.str ("object")),
            ("description", Json.str ("Cooperativity matrix"))]),
          ("repIndicators", Json.obj [("type", Json.str ("array")),
            ("description", Json.str ("Repressor indicators"))])]),
        ("required", Json.arr [Json.str ("filename"), Json.str ("coopMat"),
          Json.str ("repIndicators")])])]),
   ("expr_func_predict_expr", Json.obj [
      ("name", Json.str ("expr_func_predict_expr")),
      ("description", Json.str ("Predict expression using ExprFunc")),
      ("inputSchema", Json.obj [
        ("type", Json.str ("object")),
        ("properties", Json.obj [
          ("sites", Json.obj [("type", Json.str ("array")),
            ("description", Json.str ("Binding sites (SiteVec)"))]),
          ("length", Json.obj [("type", Json.str ("integer")),
            ("description", Json.str ("Sequence length"))]),
          ("factorConcentrations", Json.obj [("type", Json.str ("array")),
            ("description", Json.str ("TF concentration values"))])]),
        ("required", Json.arr [Json.str ("sites"), Json.str ("length"),
          Json.str ("factorConcentrations")])])])]

/-- The six known tool names, in table order. -/
def knownToolNames : List String :=
  ["expr_predictor_obj_func", "expr_par_get_free_pars", "expr_predictor_train",
   "expr_predictor_predict", "expr_par_load", "expr_func_predict_expr"]

/-- Outcome of one backend subprocess run: either the timeout elapsed
first, or the process exited with a return code and captured streams. -/
inductive ProcOutcome where
  | timeout : ProcOutcome
  | exited (returncode : Int) (stdout : String) (stderr : String) : ProcOutcome

/-- Record of one `asyncio.create_subprocess_exec` call: the program, its
argument list, the working directory, which streams were captured, the
timeout bound passed to `asyncio.wait_for`, and whether the process was
killed (which happens exactly on timeout). -/
structure Invocation where
  program : String
  args : List String
  cwd : String
  stdoutPiped : Bool
  stderrPiped : Bool
  timeoutLimit : Json
  killed : Bool

/-- The backend invoker state established by `MCPBackend.__init__`:
resolved executable path, resolved working directory, raw timeout value. -/
structure MCPBackend where
  executable_path : String
  working_directory : String
  timeout : Json

/-- The invocation performed by `create_subprocess_exec(str(path),
cwd=..., stdout=PIPE, stderr=PIPE)`: the executable with no arguments,
both output streams captured (lines 137-142 and 262-267). -/
def MCPBackend.spawnInvocation (b : MCPBackend) (killedFlag : Bool) : Invocation :=
  { program := b.executable_path, args := [], cwd := b.working_directory,
    stdoutPiped := true, stderrPiped := true, timeoutLimit := b.timeout,
    killed := killedFlag }

/-- Truthiness of the optional tool name: `if not tool_name` holds for
`None` and for the empty string. -/
def pyFalsyName : Option String → Bool
  | none => true
  | some s => s = ""

/-- `MCPBackend._get_tools_list` (lines 134-158): spawn the executable,
kill it and raise on timeout, raise on nonzero exit (with the captured
stderr, or a placeholder when it is empty), otherwise scrape the stdout
for a listing block. -/
def MCPBackend.getToolsList (b : MCPBackend) (oc : ProcOutcome) :
    Except String Json × List Invocation :=
  match oc with
  | .timeout => (.error ("MCP backend timeout"), [b.spawnInvocation true])
  | .exited rc out err =>
    if rc = 0 then (extract_json_from_output out ("tools/list"), [b.spawnInvocation false])
    else (.error ("MCP backend failed: " ++ (if err = "" then "Unknown error" else err)),
      [b.spawnInvocation false])

/-- `MCPBackend._get_tool_schema` (lines 160-253): reject a falsy name,
then answer from the static table; an unknown name raises.  No subprocess
is spawned. -/
def getToolSchema (toolName : Option String) : Except String Json × List Invocation :=
  if pyFalsyName toolName then (.error ("Tool name is required"), [])
  else
    match toolName with
    | none => (.error ("Tool name is required"), [])
    | some n =>
      match assocLookup schemasTable n with
      | some s => (.ok s, [])
      | none => (.error ("Unknown tool: " ++ n), [])

/-- `MCPBackend._execute_tool` (lines 255-283): reject a falsy name, then
spawn the executable exactly as the listing operation does — the tool
name and arguments are never transmitted — and scrape the stdout for a
call-result block. -/
def MCPBackend.executeTool (b : MCPBackend) (toolName : Option String) (arguments : Json)
    (oc : ProcOutcome) : Except String Json × List Invocation :=
  if pyFalsyName toolName then (.error ("Tool name is required"), [])
  else
    match oc with
    | .timeout => (.error ("MCP backend timeout"), [b.spawnInvocation true])
    | .exited rc out err =>
      if rc = 0 then (extract_json_from_output out ("tools/call"), [b.spawnInvocation false])
      else (.error ("MCP backend failed: " ++ (if err = "" then "Unknown error" else err)),
        [b.spawnInvocation false])

/-- The params mapping passed to `call_mcp_tool`: the code only reads the
keys `name` and `arguments`. -/
structure MCPParams where
  name : Option String
  arguments : Option Json

/-- The dispatch inside the `try` of `MCPBackend.call_mcp_tool`
(lines 118-128): route on the method string; an unknown method raises
`ValueError`. -/
def MCPBackend.callMcpToolInner (b : MCPBackend) (method : String) (params : Option MCPParams)
    (oc : ProcOutcome) : Except String Json × List Invocation :=
  if method = "tools/list" then b.getToolsList oc
  else if method = "tools/get_schema" then
    getToolSchema (match params with | some p => p.name | none => none)
  else if method = "tools/call" then
    b.executeTool (match params with | some p => p.name | none => none)
      (match params with | some p => p.arguments.getD (Json.obj []) | none => Json.obj [])
      oc
  else (.error ("Unknown method: " ++ method), [])

/-- `MCPBackend.call_mcp_tool` (lines 112-132): the catch-all `except`
turns every raised error into a normally returned
error dict, so the returned computation is never an exception. -/
def MCPBackend.callMcpTool (b : MCPBackend) (method : String) (params : Option MCPParams)
    (oc : ProcOutcome) : Except String Json × List Invocation :=
  match b.callMcpToolInner method params oc with
  | (.ok j, invs) => (.ok j, invs)
  | (.error e, invs) =>
    (.ok (Json.obj [("success", Json.bool false), ("error", Json.str e)]), invs)

/-- Outcome of reading the configuration file: missing file, any other
read or parse failure, or a successfully parsed document. -/
inductive FileOutcome where
  | missing : FileOutcome
  | readFailure : FileOutcome
  | parsed (v : Json) : FileOutcome

/-- `MCPConfig._default_config` (lines 59-66). -/
def defaultConfig : Json :=
  Json.obj [
    ("server", Json.obj [("host", Json.str ("0.0.0.0")), ("port", Json.num ("8080")),
      ("debug", Json.bool false)]),
    ("mcp", Json.obj [("executable_path", Json.str ("./mcp_demo")),
      ("working_directory", Json.str (".")), ("timeout", Json.num ("30"))]),
    ("logging", Json.obj [("level", Json.str ("INFO"))]),
    ("tools", Json.obj [("discovery_enabled", Json.bool true)])]

/-- `MCPConfig._load_config` (lines 47-57): a missing file or any other
failure substitutes the default configuration; a parsed document is used
as-is. -/
def loadConfig : FileOutcome → Json
  | .missing => defaultConfig
  | .readFailure => defaultConfig
  | .parsed v => v

/-- Digits of a Python `int()` literal, allowing single underscores
strictly between digits. -/
def pyIntDigits : Line → Option Nat → Option Nat
  | [], acc => acc
  | '_' :: c :: rest, some a =>
    if c.isDigit then pyIntDigits rest (some (a * 10 + (c.toNat - 48))) else none
  | c :: rest, acc =>
    if c.isDigit then pyIntDigits rest (some ((acc.getD 0) * 10 + (c.toNat - 48))) else none

/-- Signed integer literal body for `int()`. -/
def pyIntParse : Line → Option Int
  | '+' :: rest => (pyIntDigits rest none).map (fun n => Int.ofNat n)
  | '-' :: rest => (pyIntDigits rest none).map (fun n => -(Int.ofNat n))
  | l => (pyIntDigits l none).map (fun n => Int.ofNat n)

/-- Python `int(s)`: strip whitespace, parse an optional sign and digits,
raise `ValueError` otherwise. -/
def pyInt (s : String) : Except String Int :=
  match pyIntParse (pyStripL s.data) with
  | some n => .ok n
  | none => .error ("invalid literal for int() with base 10: " ++ s)

/-- Assignment `config[sec][key] = v` on the loaded document: raises when
the document is not a dict, the section is absent, or the section is not
a dict. -/
def setSectionKey (cfg : Json) (sec : String) (key : String) (v : Json) : Except String Json :=
  match cfg with
  | .obj fs =>
    match assocLookup fs sec with
    | some (.obj sf) => .ok (.obj (assocSet fs sec (.obj (assocSet sf key v))))
    | some _ => .error ("TypeError: section does not support item assignment: " ++ sec)
    | none => .error ("KeyError: " ++ sec)
  | _ => .error ("TypeError: config does not support item assignment")

/-- `MCPConfig._apply_env_overrides` (lines 68-77): the four environment
variables override the file values in this fixed order; the port value is
integer-parsed.  The explicit `Except.bind` chain models sequential
statements with exception propagation. -/
def applyEnvOverrides (cfg : Json) (env : String → Option String) : Except String Json :=
  Except.bind
    (match env ("MCP_SERVER_HOST") with
     | some v => setSectionKey cfg ("server") ("host") (Json.str v)
     | none => Except.ok cfg)
    (fun c1 =>
      Except.bind
        (match env ("MCP_SERVER_PORT") with
         | some v => Except.bind (pyInt v)
             (fun n => setSectionKey c1 ("server") ("port") (Json.num (toString n)))
         | none => Except.ok c1)
        (fun c2 =>
          Except.bind
            (match env ("MCP_EXECUTABLE_PATH") with
             | some v => setSectionKey c2 ("mcp") ("executable_path") (Json.str v)
             | none => Except.ok c2)
            (fun c3 =>
              match env ("MCP_WORKING_DIR") with
              | some v => setSectionKey c3 ("mcp") ("working_directory") (Json.str v)
              | none => Except.ok c3)))

/-- `MCPConfig.__init__` (lines 43-45): load the file, then apply the
environment overrides; a raised override error escapes construction. -/
def MCPConfig.init (file : FileOutcome) (env : String → Option String) : Except String Json :=
  applyEnvOverrides (loadConfig file) env

/-- Dotted-path traversal of `MCPConfig.get` (lines 79-88). -/
def cfgGetGo : Json → List String → Json → Json
  | v, [], _ => v
  | .obj fs, k :: ks, d =>
    match assocLookup fs k with
    | some v2 => cfgGetGo v2 ks d
    | none => d
  | _, _ :: _, d => d

/-- `MCPConfig.get`: split the key on dots and walk nested dicts,
returning the default as soon as a segment is absent or the current value
is not a dict. -/
def cfgGet (cfg : Json) (key : String) (default : Json) : Json :=
  cfgGetGo cfg ((splitChar '.' key.data).map (fun l => String.mk l)) default

/-- POSIX `Path.is_absolute`. -/
def isAbsolutePath (s : String) : Bool :=
  match s.data with
  | '/' :: _ => true
  | _ => false

/-- `Path(wd) / rel` for a relative right operand. -/
def pathJoin (wd : String) (rel : String) : String :=
  (if wd = "/" then "/" else wd ++ "/") ++ rel

/-- `MCPBackend.__init__` (lines 94-110): read the two paths from the
configuration, resolve the working directory, use an absolute executable
path as-is and otherwise join it to the resolved working directory, and
raise iff the resolved executable path does not exist.  The filesystem is
abstracted by `resolve` (the effect of `Path.resolve()`) and
`pathExists`. -/
def MCPBackend.init (config : Json) (resolve : String → String) (pathExists : String → Bool) :
    Except String MCPBackend :=
  match cfgGet config ("mcp.executable_path") (Json.str ("./mcp_demo")),
        cfgGet config ("mcp.working_directory") (Json.str (".")) with
  | .str ep, .str wd =>
    let workingDirectory := resolve wd
    let executablePath := if isAbsolutePath ep then ep else pathJoin workingDirectory ep
    let tmo := cfgGet config ("mcp.timeout") (Json.num ("30"))
    if pathExists executablePath then
      .ok { executable_path := executablePath, working_directory := workingDirectory,
            timeout := tmo }
    else .error ("MCP executable not found: " ++ executablePath)
  | _, _ => .error ("TypeError: argument should be a str or an os.PathLike object")

/-- Length as computed by Python `len()` on a parsed JSON value:
`TypeError` on numbers, booleans and `None`. -/
def pyLen : Json → Except String Nat
  | .str s => .ok s.length
  | .arr xs => .ok xs.length
  | .obj fs => .ok fs.length
  | .null => .error ("object of type NoneType has no len()")
  | .bool _ => .error ("object of type bool has no len()")
  | .num _ => .error ("object of type int or float has no len()")

/-- Python `result.get(key, default)`: `AttributeError` when the receiver
is not a dict. -/
def pyDictGet (j : Json) (k : String) (default : Json) : Except String Json :=
  match j with
  | .obj fs => .ok ((assocLookup fs k).getD default)
  | _ => .error ("AttributeError: object has no attribute get")

/-- Translation of a route body `try` block into an HTTP response: a
normal value is served with status 200, a raised error becomes
`HTTPException(500, detail)` (lines 395-397, 406-408, 420-422, 431-433). -/
def routeResult (comp : Except String Json) : Nat × Json :=
  match comp with
  | .ok j => (200, j)
  | .error e => (500, Json.obj [("detail", Json.str e)])

/-- `GET /tools/list` (lines 389-397). -/
def listToolsRoute (b : MCPBackend) (oc : ProcOutcome) : Nat × Json :=
  routeResult (b.callMcpTool ("tools/list") none oc).1

/-- `GET /tools/schema/(tool_name)` (lines 400-408). -/
def getToolSchemaRoute (b : MCPBackend) (toolName : String) (oc : ProcOutcome) : Nat × Json :=
  routeResult (b.callMcpTool ("tools/get_schema")
    (some { name := some toolName, arguments := none }) oc).1

/-- `POST /tools/call/(tool_name)` (lines 411-422). -/
def callToolRoute (b : MCPBackend) (toolName : String) (arguments : Json) (oc : ProcOutcome) :
    Nat × Json :=
  routeResult (b.callMcpTool ("tools/call")
    (some { name := some toolName, arguments := some arguments }) oc).1

/-- `POST /mcp/request` (lines 425-433). -/
def mcpRequestRoute (b : MCPBackend) (method : String) (params : Option MCPParams)
    (oc : ProcOutcome) : Nat × Json :=
  routeResult (b.callMcpTool method params oc).1

/-- `GET /health` (lines 368-386): call the listing operation, count
`result.get(chr(34)toolschr(34), [])` with `len`, and answer 200 healthy;
any error raised inside the `try` turns into a 503 unhealthy response.
Because `call_mcp_tool` swallows backend errors, only the `get`/`len`
steps can raise here. -/
def healthCheckRoute (b : MCPBackend) (oc : ProcOutcome) : Nat × Json :=
  let comp : Except String Json := do
    let result ← (b.callMcpTool ("tools/list") none oc).1
    let tools ← pyDictGet result ("tools") (Json.arr [])
    let n ← pyLen tools
    Except.ok (Json.obj [("status", Json.str ("healthy")),
      ("backend", Json.str ("accessible")),
      ("tools_available", Json.num (toString n))])
  match comp with
  | .ok body => (200, body)
  | .error e =>
    (503, Json.obj [("status", Json.str ("unhealthy")), ("error", Json.str e)])

/-- A concrete backend value used by counterexamples, as built by
`MCPBackend.__init__` from the default configuration when the executable
exists. -/
def demoBackend : MCPBackend :=
  { executable_path := "././mcp_demo", working_directory := ".", timeout := Json.num ("30") }

/-- A contiguous segment of the output lines, starting at line `i` and
extending over `n` further lines, that the scanner could accept: its
first line starts (stripped) with an opening brace, the joined text
parses as JSON, and the parsed value passes the shape test for the
request type. -/
def qualifyingSeg (lines : List Line) (requestType : String) (i n : Nat) : Bool :=
  lineStartsBrace (lines.getD i []) &&
  (match jsonLoads (concatLines ((lines.drop i).take (n + 1))) with
   | some r => (match shapeMatch requestType r with | .ok true => true | _ => false)
   | none => false)

/-- JSON whitespace is also `str.strip` whitespace. -/
theorem isJsonWs_isPyWs {c : Char} (h : isJsonWs c = true) : isPyWs c = true := by
  simp only [isJsonWs, Bool.or_eq_true, decide_eq_true_eq] at h
  simp only [isPyWs, Bool.or_eq_true, decide_eq_true_eq]
  tauto

/-- Skipping JSON whitespace does not change the first non-strip-whitespace
character. -/
theorem firstNonPyWs_skipJsonWs (cs : Line) :
    firstNonPyWs (skipJsonWs cs) = firstNonPyWs cs := by
  induction cs with
  | nil => rfl
  | cons c rest ih =>
    by_cases hj : isJsonWs c = true
    · have hp : isPyWs c = true := isJsonWs_isPyWs hj
      simpa [skipJsonWs, firstNonPyWs, List.dropWhile_cons, hj, hp] using ih
    · simp [skipJsonWs, firstNonPyWs, List.dropWhile_cons, Bool.eq_false_iff.mpr hj]

/-- The head surviving `skipJsonWs` is not JSON whitespace. -/
theorem skipJsonWs_head_not {cs : Line} {c : Char} {rest : Line}
    (h : skipJsonWs cs = c :: rest) : isJsonWs c = false := by
  induction cs with
  | nil => simp [skipJsonWs, List.dropWhile] at h
  | cons a tail ih =>
    by_cases hj : isJsonWs a = true
    · exact ih (by simpa [skipJsonWs, List.dropWhile_cons, hj] using h)
    · have heq : skipJsonWs (a :: tail) = a :: tail := by
        simp [skipJsonWs, List.dropWhile_cons, Bool.eq_false_iff.mpr hj]
      rw [heq] at h
      injection h with h1 h2
      rw [← h1]
      exact Bool.eq_false_iff.mpr hj

/-- The stripped line is a prefix of the line with only leading
whitespace removed. -/
theorem pyStripL_prefix (l : Line) : ∃ t, l.dropWhile isPyWs = pyStripL l ++ t := by
  have hsfx : (l.dropWhile isPyWs).reverse.dropWhile isPyWs <:+ (l.dropWhile isPyWs).reverse :=
    List.dropWhile_suffix isPyWs
  have hpre := hsfx.reverse
  rw [List.reverse_reverse] at hpre
  obtain ⟨t, ht⟩ := hpre
  exact ⟨t, by rw [← ht]; rfl⟩

/-- A singleton prefix test identifies the head of the list. -/
theorem isPrefixL_single {c : Char} {xs : Line} (h : isPrefixL [c] xs = true) :
    ∃ t, xs = c :: t := by
  cases xs with
  | nil => simp [isPrefixL] at h
  | cons a t =>
    simp only [isPrefixL, Bool.and_eq_true, decide_eq_true_eq] at h
    exact ⟨t, by rw [h.1]⟩

/-- A line passing the brace-start test has an opening brace as its first
non-whitespace character. -/
theorem lineStartsBrace_firstNonPyWs {l : Line} (h : lineStartsBrace l = true) :
    firstNonPyWs l = some '{' := by
  obtain ⟨t1, ht1⟩ := isPrefixL_single h
  obtain ⟨t2, ht2⟩ := pyStripL_prefix l
  rw [ht1] at ht2
  simp [firstNonPyWs, ht2]

/-- Extending a string on the right keeps its first non-whitespace
character. -/
theorem firstNonPyWs_append {h : Line} {c : Char} (t : Line)
    (hh : firstNonPyWs h = some c) : firstNonPyWs (h ++ t) = some c := by
  induction h with
  | nil => simp [firstNonPyWs] at hh
  | cons a rest ih =>
    by_cases hp : isPyWs a = true
    · have h1 : firstNonPyWs (a :: rest) = firstNonPyWs rest := by
        simp [firstNonPyWs, List.dropWhile_cons, hp]
      have h2 : firstNonPyWs ((a :: rest) ++ t) = firstNonPyWs (rest ++ t) := by
        simp [firstNonPyWs, List.dropWhile_cons, hp]
      rw [h1] at hh
      rw [h2]
      exact ih hh
    · have h1 : firstNonPyWs (a :: rest) = some a := by
        simp [firstNonPyWs, List.dropWhile_cons, Bool.eq_false_iff.mpr hp]
      have h2 : firstNonPyWs ((a :: rest) ++ t) = some a := by
        simp [firstNonPyWs, List.dropWhile_cons, Bool.eq_false_iff.mpr hp]
      rw [h1] at hh
      rw [h2]
      exact hh

/-- Joining a nonempty list of lines starts with its first line. -/
theorem concatLines_cons (h : Line) (t : List Line) :
    concatLines (h :: t) = h ++ concatLines t := rfl

/-- A strip-whitespace character that is not JSON whitespace is a
vertical tab or form feed. -/
theorem pyws_not_jsonws_cases {c : Char} (hp : isPyWs c = true) (hj : isJsonWs c = false) :
    c = '\x0b' ∨ c = '\x0c' := by
  simp only [isPyWs, Bool.or_eq_true, decide_eq_true_eq] at hp
  rcases hp with ((((h | h) | h) | h) | h) | h
  · exact absurd hj (by rw [h]; decide)
  · exact absurd hj (by rw [h]; decide)
  · exact absurd hj (by rw [h]; decide)
  · exact absurd hj (by rw [h]; decide)
  · exact Or.inl h
  · exact Or.inr h

/-- Anything `json.loads` accepts whose first non-whitespace character is
an opening brace is an object: this is why the `in` tests inside the
scanner can never raise on a completed candidate. -/
theorem jsonLoads_brace_obj {cs : Line} {j : Json} (hl : jsonLoads cs = some j)
    (hb : firstNonPyWs cs = some '{') : ∃ fs, j = Json.obj fs := by
  unfold jsonLoads at hl
  cases hq : parseValue (4 * cs.length + 4) cs with
  | none => rw [hq] at hl; simp at hl
  | some p =>
    obtain ⟨jv, rest⟩ := p
    rw [hq] at hl
    have hj : jv = j := by
      by_cases hr : skipJsonWs rest = []
      · simpa [hr] using hl
      · simp [hr] at hl
    obtain ⟨f, hf⟩ : ∃ f, 4 * cs.length + 4 = f + 1 := ⟨4 * cs.length + 3, by omega⟩
    rw [hf] at hq
    rw [parseValue] at hq
    cases hsk : skipJsonWs cs with
    | nil => rw [hsk] at hq; simp at hq
    | cons c rest2 =>
      rw [hsk] at hq
      have hcj : isJsonWs c = false := skipJsonWs_head_not hsk
      have hfw : firstNonPyWs (c :: rest2) = some '{' := by
        rw [← hsk, firstNonPyWs_skipJsonWs]; exact hb
      by_cases hc : c = '{'
      · subst hc
        simp only [if_pos rfl] at hq
        obtain ⟨q, hq1, hq2⟩ := Option.map_eq_some'.mp hq
        refine ⟨q.1, ?_⟩
        rw [← hj]
        have := congrArg Prod.fst hq2
        simpa using this.symm
      · by_cases hp : isPyWs c = true
        · rcases pyws_not_jsonws_cases hp hcj with h | h
          · subst h
            have hat : parseAtom ('\x0b' :: rest2) = none := rfl
            simp [hat] at hq
          · subst h
            have hat : parseAtom ('\x0c' :: rest2) = none := rfl
            simp [hat] at hq
        · have : firstNonPyWs (c :: rest2) = some c := by
            simp [firstNonPyWs, List.dropWhile_cons, Bool.eq_false_iff.mpr hp]
          rw [this] at hfw
          injection hfw with hfw2
          exact absurd hfw2 hc

theorem pyIn_obj (k : String) (fs : List (String × Json)) :
    pyIn k (Json.obj fs) = .ok (assocLookup fs k).isSome := rfl

theorem shapeMatch_obj (rt : String) (fs : List (String × Json)) :
    ∃ b, shapeMatch rt (Json.obj fs) = .ok b := by
  unfold shapeMatch
  by_cases h1 : rt = "tools/list"
  · exact ⟨_, by rw [if_pos h1]; rfl⟩
  · rw [if_neg h1]
    by_cases h2 : rt = "tools/call"
    · rw [if_pos h2]
      rw [pyIn_obj]
      cases hb : (assocLookup fs ("success")).isSome
      · exact ⟨_, rfl⟩
      · exact ⟨true, rfl⟩
    · exact ⟨false, by rw [if_neg h2]⟩

theorem extractScanGo_shape (rt : String) (lines : List Line) :
    ∀ (inJ : Bool) (acc : List Line),
    (inJ = true → acc ≠ [] ∧ lineStartsBrace (acc.headD []) = true) →
    (extractScanGo rt lines inJ acc = .ok none) ∨
      (∃ fs, extractScanGo rt lines inJ acc = .ok (some (Json.obj fs))) := by
  induction lines with
  | nil => intro inJ acc _; left; rfl
  | cons l rest ih =>
    intro inJ acc hinv
    by_cases hsb : lineStartsBrace l = true
    · have heq : extractScanGo rt (l :: rest) inJ acc = extractScanGo rt rest true [l] := by
        simp only [extractScanGo, hsb, if_true]
      rw [heq]
      exact ih true [l] (fun _ => ⟨by simp, by simpa using hsb⟩)
    · have hsb2 : lineStartsBrace l = false := Bool.eq_false_iff.mpr hsb
      cases inJ with
      | false =>
        have heq : extractScanGo rt (l :: rest) false acc = extractScanGo rt rest false acc := by
          simp only [extractScanGo, hsb2, Bool.false_eq_true, if_false]
        rw [heq]
        exact ih false acc (by simp)
      | true =>
        obtain ⟨hne, hhead⟩ := hinv rfl
        obtain ⟨a, as, rfl⟩ : ∃ a as, acc = a :: as := by
          cases acc with
          | nil => exact absurd rfl hne
          | cons a as => exact ⟨a, as, rfl⟩
        have hhead2 : lineStartsBrace a = true := by simpa using hhead
        by_cases heb : lineEndsBrace l = true
        · cases hload : jsonLoads (concatLines ((a :: as) ++ [l])) with
          | none =>
            have heq : extractScanGo rt (l :: rest) true (a :: as) =
                extractScanGo rt rest true ((a :: as) ++ [l]) := by
              simp only [extractScanGo, hsb2, Bool.false_eq_true, if_false, if_true, heb, hload]
            rw [heq]
            exact ih true _ (fun _ => ⟨by simp, by simpa using hhead2⟩)
          | some result =>
            have hfw : firstNonPyWs (concatLines ((a :: as) ++ [l])) = some '{' := by
              have h1 : firstNonPyWs a = some '{' := lineStartsBrace_firstNonPyWs hhead2
              have h2 : concatLines ((a :: as) ++ [l]) = a ++ concatLines (as ++ [l]) := rfl
              rw [h2]
              exact firstNonPyWs_append _ h1
            obtain ⟨fs, rfl⟩ := jsonLoads_brace_obj hload hfw
            obtain ⟨b, hb⟩ := shapeMatch_obj rt fs
            cases b with
            | false =>
              have heq : extractScanGo rt (l :: rest) true (a :: as) =
                  extractScanGo rt rest false [] := by
                simp only [extractScanGo, hsb2, Bool.false_eq_true, if_false, if_true, heb, hload, hb]
              rw [heq]
              exact ih false [] (by simp)
            | true =>
              right
              refine ⟨fs, ?_⟩
              simp only [extractScanGo, hsb2, Bool.false_eq_true, if_false, if_true, heb, hload, hb]
        · have heb2 : lineEndsBrace l = false := Bool.eq_false_iff.mpr heb
          have heq : extractScanGo rt (l :: rest) true (a :: as) =
              extractScanGo rt rest true ((a :: as) ++ [l]) := by
            simp only [extractScanGo, hsb2, Bool.false_eq_true, if_false, if_true, heb2]
          rw [heq]
          exact ih true _ (fun _ => ⟨by simp, by simpa using hhead2⟩)

theorem extract_json_obj (output : String) (rt : String) :
    ∃ fs, extract_json_from_output output rt = .ok (Json.obj fs) := by
  rcases extractScanGo_shape rt (linesOf output) false [] (by simp) with h | ⟨fs, h⟩
  · unfold extract_json_from_output
    rw [h]
    by_cases hr : rt = "tools/list"
    · rw [if_pos hr]
      exact ⟨_, rfl⟩
    · rw [if_neg hr]
      exact ⟨_, rfl⟩
  · unfold extract_json_from_output
    rw [h]
    exact ⟨fs, rfl⟩

theorem extractScanGo_skip (rt : String) (pre : List Line) :
    ∀ (rest : List Line) (acc : List Line),
    (∀ l ∈ pre, lineStartsBrace l = false) →
    extractScanGo rt (pre ++ rest) false acc = extractScanGo rt rest false acc := by
  induction pre with
  | nil => intro rest acc _; rfl
  | cons p ps ih =>
    intro rest acc hpre
    have hp : lineStartsBrace p = false := hpre p (by simp)
    have heq : extractScanGo rt ((p :: ps) ++ rest) false acc =
        extractScanGo rt (ps ++ rest) false acc := by
      simp only [List.cons_append, extractScanGo, hp, Bool.false_eq_true, if_false,
        List.append_eq]
    rw [heq]
    exact ih rest acc (fun l hl => hpre l (by simp [hl]))

theorem extractScanGo_run (rt : String) :
    ∀ (suffix : List Line) (acc : List Line) (post : List Line) (j : Json),
    suffix ≠ [] →
    (∀ l ∈ suffix, lineStartsBrace l = false) →
    (∀ k, k < suffix.length - 1 → lineEndsBrace (suffix.getD k []) = true →
      (jsonLoads (concatLines (acc ++ suffix.take (k + 1)))).isNone = true) →
    lineEndsBrace (suffix.getD (suffix.length - 1) []) = true →
    jsonLoads (concatLines (acc ++ suffix)) = some j →
    shapeMatch rt j = .ok true →
    extractScanGo rt (suffix ++ post) true acc = .ok (some j) := by
  intro suffix
  induction suffix with
  | nil => intro acc post j hne; exact absurd rfl hne
  | cons l rest ih =>
    intro acc post j _ htail hmid hlast hparse hshape
    have hsb : lineStartsBrace l = false := htail l (by simp)
    cases rest with
    | nil =>
      have heb : lineEndsBrace l = true := by simpa using hlast
      have hparse2 : jsonLoads (concatLines (acc ++ [l])) = some j := hparse
      have heq : extractScanGo rt ([l] ++ post) true acc = .ok (some j) := by
        simp only [List.cons_append, List.nil_append, extractScanGo, hsb, Bool.false_eq_true,
          if_false, if_true, heb, hparse2, hshape]
      exact heq
    | cons l2 rest2 =>
      have hstep : extractScanGo rt ((l :: l2 :: rest2) ++ post) true acc =
          extractScanGo rt ((l2 :: rest2) ++ post) true (acc ++ [l]) := by
        by_cases heb : lineEndsBrace l = true
        · have h0 := hmid 0 (by simp) (by simpa using heb)
          have hnone : jsonLoads (concatLines (acc ++ [l])) = none := by
            simpa [List.take, Option.isNone_iff_eq_none] using h0
          simp only [List.cons_append, extractScanGo, hsb, Bool.false_eq_true, if_false,
            if_true, heb, hnone]
        · have heb2 : lineEndsBrace l = false := Bool.eq_false_iff.mpr heb
          simp only [List.cons_append, extractScanGo, hsb, Bool.false_eq_true, if_false,
            if_true, heb2]
      rw [hstep]
      apply ih (acc ++ [l]) post j (by simp)
      · exact fun x hx => htail x (by simp [hx])
      · intro k hk hkend
        have h2 := hmid (k + 1) (by simp at hk ⊢; omega) (by simpa using hkend)
        have heq2 : acc ++ (l :: l2 :: rest2).take (k + 1 + 1) =
            (acc ++ [l]) ++ (l2 :: rest2).take (k + 1) := by
          simp [List.take_cons, List.append_assoc]
        rw [heq2] at h2
        exact h2
      · simpa using hlast
      · have heq3 : acc ++ (l :: l2 :: rest2) = (acc ++ [l]) ++ (l2 :: rest2) := by
          simp [List.append_assoc]
        rw [heq3] at hparse
        exact hparse
      · exact hshape

theorem extractScanGo_noQual (rt : String) (lines : List Line)
    (hq : ∀ i, i < lines.length → ∀ n, n < lines.length → qualifyingSeg lines rt i n = false) :
    ∀ (suffix front : List Line) (inJ : Bool) (acc : List Line),
    lines = front ++ suffix →
    (inJ = true → ∃ i, i < front.length ∧ acc = front.drop i ∧
      lineStartsBrace (front.getD i []) = true) →
    extractScanGo rt suffix inJ acc = .ok none := by
  intro suffix
  induction suffix with
  | nil => intro front inJ acc _ _; rfl
  | cons l rest ih =>
    intro front inJ acc hsplit hinv
    have hsplit2 : lines = (front ++ [l]) ++ rest := by
      rw [hsplit, List.append_assoc]
      rfl
    by_cases hsb : lineStartsBrace l = true
    · have heq : extractScanGo rt (l :: rest) inJ acc = extractScanGo rt rest true [l] := by
        simp only [extractScanGo, hsb, if_true]
      rw [heq]
      apply ih (front ++ [l]) true [l] hsplit2
      intro _
      refine ⟨front.length, by simp, by rw [List.drop_left], ?_⟩
      rw [List.getD_eq_getElem?_getD, List.getElem?_append_right (le_refl _)]
      simpa using hsb
    · have hsb2 : lineStartsBrace l = false := Bool.eq_false_iff.mpr hsb
      cases inJ with
      | false =>
        have heq : extractScanGo rt (l :: rest) false acc = extractScanGo rt rest false acc := by
          simp only [extractScanGo, hsb2, Bool.false_eq_true, if_false]
        rw [heq]
        exact ih (front ++ [l]) false acc hsplit2 (by simp)
      | true =>
        obtain ⟨i, hi, hacc, hib⟩ := hinv rfl
        have hacc2 : acc ++ [l] = (front ++ [l]).drop i := by
          rw [hacc, List.drop_append_of_le_length (le_of_lt hi)]
        have hinv2 : (true : Bool) = true → ∃ i2, i2 < (front ++ [l]).length ∧
            acc ++ [l] = (front ++ [l]).drop i2 ∧
            lineStartsBrace ((front ++ [l]).getD i2 []) = true := by
          intro _
          refine ⟨i, by simp only [List.length_append, List.length_cons]; omega, hacc2, ?_⟩
          rw [List.getD_append _ _ _ _ hi]
          exact hib
        by_cases heb : lineEndsBrace l = true
        · cases hload : jsonLoads (concatLines (acc ++ [l])) with
          | none =>
            have heq : extractScanGo rt (l :: rest) true acc =
                extractScanGo rt rest true (acc ++ [l]) := by
              simp only [extractScanGo, hsb2, Bool.false_eq_true, if_false, if_true, heb, hload]
            rw [heq]
            exact ih (front ++ [l]) true (acc ++ [l]) hsplit2 hinv2
          | some result =>
            have hlen : acc.length = front.length - i := by
              rw [hacc]
              exact List.length_drop i front
            have hne2 : acc ≠ [] := by
              intro hc
              rw [hc] at hlen
              simp at hlen
              omega
            obtain ⟨a, as, haeq⟩ : ∃ a as, acc = a :: as := by
              cases acc with
              | nil => exact absurd rfl hne2
              | cons a as => exact ⟨a, as, rfl⟩
            have hhead : a = front.getD i [] := by
              have h1 : acc.headD [] = front.getD i [] := by
                rw [hacc, List.drop_eq_getElem_cons hi]
                simp [List.getD_eq_getElem front [] hi]
              rw [haeq] at h1
              simpa using h1
            have hab : lineStartsBrace a = true := by rw [hhead]; exact hib
            have hfw : firstNonPyWs (concatLines (acc ++ [l])) = some '{' := by
              rw [haeq]
              have h2 : concatLines ((a :: as) ++ [l]) = a ++ concatLines (as ++ [l]) := rfl
              rw [h2]
              exact firstNonPyWs_append _ (lineStartsBrace_firstNonPyWs hab)
            obtain ⟨fs, rfl⟩ := jsonLoads_brace_obj hload hfw
            obtain ⟨b, hb⟩ := shapeMatch_obj rt fs
            cases b with
            | false =>
              have heq : extractScanGo rt (l :: rest) true acc =
                  extractScanGo rt rest false [] := by
                simp only [extractScanGo, hsb2, Bool.false_eq_true, if_false, if_true, heb,
                  hload, hb]
              rw [heq]
              exact ih (front ++ [l]) false [] hsplit2 (by simp)
            | true =>
              exfalso
              have hlines : lines.length = front.length + 1 + rest.length := by
                rw [hsplit2]
                simp [List.length_append]
                omega
              have hquse := hq i (by omega) acc.length (by omega)
              have hgetD : lines.getD i [] = front.getD i [] := by
                rw [hsplit]
                exact List.getD_append _ _ _ _ hi
              have hdrop : lines.drop i = (acc ++ [l]) ++ rest := by
                rw [hsplit, List.drop_append_of_le_length (le_of_lt hi), ← hacc,
                  List.append_assoc]
                rfl
              have hseg : (lines.drop i).take (acc.length + 1) = acc ++ [l] := by
                rw [hdrop]
                exact List.take_left' (by simp)
              unfold qualifyingSeg at hquse
              rw [hgetD, hseg] at hquse
              simp only [hload, hb] at hquse
              simp only [hib, Bool.true_and] at hquse
              exact absurd hquse (by simp)
        · have heb2 : lineEndsBrace l = false := Bool.eq_false_iff.mpr heb
          have heq : extractScanGo rt (l :: rest) true acc =
              extractScanGo rt rest true (acc ++ [l]) := by
            simp only [extractScanGo, hsb2, Bool.false_eq_true, if_false, if_true, heb2]
          rw [heq]
          exact ih (front ++ [l]) true (acc ++ [l]) hsplit2 hinv2

theorem schemasTable_obj {n : String} {s : Json} (h : assocLookup schemasTable n = some s) :
    ∃ fs, s = Json.obj fs := by
  simp only [schemasTable, assocLookup] at h
  repeat' split at h
  all_goals first
    | (injection h with h2; exact ⟨_, h2.symm⟩)
    | simp at h

theorem getToolsList_ok_obj {b : MCPBackend} {oc : ProcOutcome} {j : Json}
    {invs : List Invocation} (h : b.getToolsList oc = (.ok j, invs)) :
    ∃ fs, j = Json.obj fs := by
  unfold MCPBackend.getToolsList at h
  split at h
  · exact absurd h (by simp)
  · rename_i rc out err
    split at h
    · obtain ⟨fs, hex⟩ := extract_json_obj out ("tools/list")
      rw [hex] at h
      injection h with h1 h2
      injection h1 with h3
      exact ⟨fs, h3.symm⟩
    · exact absurd h (by simp)

theorem executeTool_ok_obj {b : MCPBackend} {nm : Option String} {args : Json}
    {oc : ProcOutcome} {j : Json} {invs : List Invocation}
    (h : b.executeTool nm args oc = (.ok j, invs)) : ∃ fs, j = Json.obj fs := by
  unfold MCPBackend.executeTool at h
  split at h
  · exact absurd h (by simp)
  · split at h
    · exact absurd h (by simp)
    · rename_i rc out err
      split at h
      · obtain ⟨fs, hex⟩ := extract_json_obj out ("tools/call")
        rw [hex] at h
        injection h with h1 h2
        injection h1 with h3
        exact ⟨fs, h3.symm⟩
      · exact absurd h (by simp)

theorem getToolSchema_ok_obj {nm : Option String} {j : Json} {invs : List Invocation}
    (h : getToolSchema nm = (.ok j, invs)) : ∃ fs, j = Json.obj fs := by
  unfold getToolSchema at h
  split at h
  · exact absurd h (by simp)
  · split at h
    · exact absurd h (by simp)
    · rename_i n
      split at h
      · rename_i s heq
        injection h with h1 h2
        obtain ⟨fs, hs⟩ := schemasTable_obj heq
        exact ⟨fs, by rw [← hs]; injection h1 with h3; exact h3.symm⟩
      · exact absurd h (by simp)

theorem callMcpToolInner_ok_obj {b : MCPBackend} {method : String} {params : Option MCPParams}
    {oc : ProcOutcome} {j : Json} {invs : List Invocation}
    (h : b.callMcpToolInner method params oc = (.ok j, invs)) : ∃ fs, j = Json.obj fs := by
  unfold MCPBackend.callMcpToolInner at h
  split at h
  · exact getToolsList_ok_obj h
  · split at h
    · exact getToolSchema_ok_obj h
    · split at h
      · exact executeTool_ok_obj h
      · exact absurd h (by simp)

theorem callMcpTool_ok (b : MCPBackend) (method : String) (params : Option MCPParams)
    (oc : ProcOutcome) : ∃ fs, (b.callMcpTool method params oc).1 = .ok (Json.obj fs) := by
  unfold MCPBackend.callMcpTool
  cases hin : b.callMcpToolInner method params oc with
  | mk r invs2 =>
    cases r with
    | ok j =>
      obtain ⟨fs, hj⟩ := callMcpToolInner_ok_obj hin
      exact ⟨fs, by rw [hj]⟩
    | error e => exact ⟨_, rfl⟩

/-- C10: for every method, params and backend outcome, `call_mcp_tool`
returns a dict and never propagates an exception: internal errors become
a success-false error dict, so the route handlers always answer 200 and
their 500 translation is unreachable for backend errors. -/
theorem C10_never_raises :
    ∀ (b : MCPBackend) (method : String) (params : Option MCPParams) (oc : ProcOutcome),
      (∃ fs, (b.callMcpTool method params oc).1 = .ok (Json.obj fs))
      ∧ (∀ e invs, b.callMcpToolInner method params oc = (.error e, invs) →
          (b.callMcpTool method params oc).1 =
            .ok (Json.obj [("success", Json.bool false), ("error", Json.str e)]))
      ∧ (mcpRequestRoute b method params oc).1 = 200
      ∧ (∀ (toolName : String) (args : Json), (callToolRoute b toolName args oc).1 = 200) := by
  intro b method params oc
  refine ⟨callMcpTool_ok b method params oc, ?_, ?_, ?_⟩
  · intro e invs h
    unfold MCPBackend.callMcpTool
    rw [h]
  · obtain ⟨fs, h⟩ := callMcpTool_ok b method params oc
    unfold mcpRequestRoute routeResult
    rw [h]
  · intro toolName args
    obtain ⟨fs, h⟩ := callMcpTool_ok b ("tools/call")
      (some { name := some toolName, arguments := some args }) oc
    unfold callToolRoute routeResult
    rw [h]

/-- C10 witness: a call with an unknown method name returns a 200-served
error dict rather than raising. -/
theorem C10_witness :
    (demoBackend.callMcpTool ("bogus") none ProcOutcome.timeout).1 =
      .ok (Json.obj [("success", Json.bool false),
        ("error", Json.str ("Unknown method: bogus"))]) :=
  (C10_never_raises demoBackend ("bogus") none ProcOutcome.timeout).2.1
    ("Unknown method: bogus") [] rfl

/-- C1 counterexample: `POST /tools/call/unknown_tool_xyz` with body
braces-empty and a backend run that exits zero with empty output answers
HTTP 200 with the generic scrape-failure payload — not HTTP 500 and not
an Unknown tool message. -/
theorem C1_counterexample :
    callToolRoute demoBackend ("unknown_tool_xyz") (Json.obj [])
      (ProcOutcome.exited 0 "" "") = (200, genericCallFailure)
    ∧ (callToolRoute demoBackend ("unknown_tool_xyz") (Json.obj [])
        (ProcOutcome.exited 0 "" "")).1 ≠ 500 := by
  exact ⟨rfl, by decide⟩

/-- C1 (amended): calling an unknown tool name never yields 500: the
status is always 200, the backend is spawned regardless of the name, and
the body is whatever the scraper produced for the backend run (the
generic failure payload when nothing qualifies; a timeout becomes a
success-false timeout dict). -/
theorem C1_amended :
    ∀ (b : MCPBackend) (args : Json) (oc : ProcOutcome),
      (callToolRoute b ("unknown_tool_xyz") args oc).1 = 200
      ∧ (∀ out err j, oc = ProcOutcome.exited 0 out err →
          extract_json_from_output out ("tools/call") = .ok j →
          (callToolRoute b ("unknown_tool_xyz") args oc).2 = j)
      ∧ callToolRoute b ("unknown_tool_xyz") args ProcOutcome.timeout =
          (200, Json.obj [("success", Json.bool false),
            ("error", Json.str ("MCP backend timeout"))]) := by
  intro b args oc
  refine ⟨?_, ?_, ?_⟩
  · obtain ⟨fs, h⟩ := callMcpTool_ok b ("tools/call")
      (some { name := some ("unknown_tool_xyz"), arguments := some args }) oc
    unfold callToolRoute routeResult
    rw [h]
  · intro out err j hoc hex
    subst hoc
    unfold callToolRoute MCPBackend.callMcpTool MCPBackend.callMcpToolInner
      MCPBackend.executeTool routeResult
    simp [hex, show pyFalsyName (some ("unknown_tool_xyz")) = false from rfl]
  · rfl

/-- C1 witness: at the concrete empty-output run the body is exactly the
generic failure payload. -/
theorem C1_witness :
    (callToolRoute demoBackend ("unknown_tool_xyz") (Json.obj [])
      (ProcOutcome.exited 0 "" "")).2 = genericCallFailure :=
  (C1_amended demoBackend (Json.obj []) (ProcOutcome.exited 0 "" "")).2.1 "" ""
    genericCallFailure rfl rfl

/-- C3 counterexample: when the backend times out, the health endpoint
answers 200 healthy with zero tools, not 503 unhealthy — the catch-all in
`call_mcp_tool` hides the failure from the health route. -/
theorem C3_counterexample :
    healthCheckRoute demoBackend ProcOutcome.timeout =
      (200, Json.obj [("status", Json.str ("healthy")),
        ("backend", Json.str ("accessible")), ("tools_available", Json.num ("0"))])
    ∧ (healthCheckRoute demoBackend ProcOutcome.timeout).1 ≠ 503 := by
  exact ⟨rfl, by decide⟩

/-- C3 (amended): on a zero-exit run whose output scrapes to a listing
with a tools array, health reports 200 healthy with that array length;
on a backend timeout or nonzero exit it still reports 200 healthy, with
zero tools — never 503 for backend failures. -/
theorem C3_amended :
    ∀ (b : MCPBackend) (oc : ProcOutcome),
      (∀ out fs ts, oc = ProcOutcome.exited 0 out "" →
        extract_json_from_output out ("tools/list") = .ok (Json.obj fs) →
        assocLookup fs ("tools") = some (Json.arr ts) →
        healthCheckRoute b oc = (200, Json.obj [("status", Json.str ("healthy")),
          ("backend", Json.str ("accessible")),
          ("tools_available", Json.num (toString ts.length))]))
      ∧ (∀ (rc : Int) (out err : String), rc ≠ 0 →
          healthCheckRoute b (ProcOutcome.exited rc out err) =
            (200, Json.obj [("status", Json.str ("healthy")),
              ("backend", Json.str ("accessible")), ("tools_available", Json.num ("0"))]))
      ∧ healthCheckRoute b ProcOutcome.timeout =
          (200, Json.obj [("status", Json.str ("healthy")),
            ("backend", Json.str ("accessible")), ("tools_available", Json.num ("0"))]) := by
  intro b oc
  refine ⟨?_, ?_, ?_⟩
  · intro out fs ts hoc hex hlookup
    subst hoc
    unfold healthCheckRoute MCPBackend.callMcpTool MCPBackend.callMcpToolInner
      MCPBackend.getToolsList
    simp [hex, pyDictGet, hlookup, pyLen, bind, Except.bind]
  · intro rc out err hrc
    unfold healthCheckRoute MCPBackend.callMcpTool MCPBackend.callMcpToolInner
      MCPBackend.getToolsList
    simp [hrc, pyDictGet, pyLen, bind, Except.bind, assocLookup]
    rfl
  · rfl

/-- C3 witness: a zero-exit run with empty output scrapes to the static
six-tool fallback, so health reports six tools available. -/
theorem C3_witness :
    healthCheckRoute demoBackend (ProcOutcome.exited 0 "" "") =
      (200, Json.obj [("status", Json.str ("healthy")),
        ("backend", Json.str ("accessible")), ("tools_available", Json.num ("6"))]) :=
  (C3_amended demoBackend (ProcOutcome.exited 0 "" "")).1 ""
    [("tools", Json.arr [
      Json.obj [("name", Json.str ("expr_predictor_obj_func")),
        ("description", Json.str ("Compute objective function value for ExprPredictor with given parameters"))],
      Json.obj [("name", Json.str ("expr_par_get_free_pars")),
        ("description", Json.str ("Extract free parameters from ExprPar object"))],
      Json.obj [("name", Json.str ("expr_predictor_train")),
        ("description", Json.str ("Train ExprPredictor model with given data"))],
      Json.obj [("name", Json.str ("expr_predictor_predict")),
        ("description", Json.str ("Predict expression values using trained ExprPredictor"))],
      Json.obj [("name", Json.str ("expr_par_load")),
        ("description", Json.str ("Load ExprPar parameters from file"))],
      Json.obj [("name", Json.str ("expr_func_predict_expr")),
        ("description", Json.str ("Predict expression using ExprFunc"))]])]
    [Json.obj [("name", Json.str ("expr_predictor_obj_func")),
        ("description", Json.str ("Compute objective function value for ExprPredictor with given parameters"))],
      Json.obj [("name", Json.str ("expr_par_get_free_pars")),
        ("description", Json.str ("Extract free parameters from ExprPar object"))],
      Json.obj [("name", Json.str ("expr_predictor_train")),
        ("description", Json.str ("Train ExprPredictor model with given data"))],
      Json.obj [("name", Json.str ("expr_predictor_predict")),
        ("description", Json.str ("Predict expression values using trained ExprPredictor"))],
      Json.obj [("name", Json.str ("expr_par_load")),
        ("description", Json.str ("Load ExprPar parameters from file"))],
      Json.obj [("name", Json.str ("expr_func_predict_expr")),
        ("description", Json.str ("Predict expression using ExprFunc"))]]
    rfl rfl rfl

/-- C4 counterexample: schema lookup spawns no subprocess at all (its
invocation list is empty), while the listing operation spawns exactly
one. -/
theorem C4_counterexample :
    (getToolSchema (some ("expr_par_load"))).2 = ([] : List Invocation)
    ∧ (MCPBackend.getToolsList demoBackend (ProcOutcome.exited 0 "" "")).2 =
        [demoBackend.spawnInvocation false] := ⟨rfl, rfl⟩

/-- C4 (amended): listing and execution each spawn exactly one invocation
of the executable with no arguments, both streams captured, bounded by
the configured timeout, identical regardless of the requested tool or
arguments; schema lookup spawns nothing. -/
theorem C4_amended :
    ∀ (b : MCPBackend) (oc : ProcOutcome) (n n2 : Option String) (args args2 : Json),
      (b.getToolsList oc).2 =
        [b.spawnInvocation (match oc with | ProcOutcome.timeout => true | _ => false)]
      ∧ (∀ k, b.spawnInvocation k =
          ⟨b.executable_path, [], b.working_directory, true, true, b.timeout, k⟩)
      ∧ (pyFalsyName n = false → (b.executeTool n args oc).2 = (b.getToolsList oc).2)
      ∧ (pyFalsyName n = false → pyFalsyName n2 = false →
          (b.executeTool n args oc).2 = (b.executeTool n2 args2 oc).2)
      ∧ (getToolSchema n).2 = [] := by
  intro b oc n n2 args args2
  refine ⟨?_, fun k => rfl, ?_, ?_, ?_⟩
  · cases oc with
    | timeout => rfl
    | exited rc out err =>
      simp only [MCPBackend.getToolsList]
      split <;> rfl
  · intro hn
    cases oc with
    | timeout => simp [MCPBackend.executeTool, MCPBackend.getToolsList, hn]
    | exited rc out err =>
      simp only [MCPBackend.executeTool, MCPBackend.getToolsList, hn, Bool.false_eq_true,
        if_false]
      split <;> rfl
  · intro hn hn2
    cases oc with
    | timeout => simp [MCPBackend.executeTool, hn, hn2]
    | exited rc out err =>
      simp only [MCPBackend.executeTool, hn, hn2, Bool.false_eq_true, if_false]
  · unfold getToolSchema
    split
    · rfl
    · split
      · rfl
      · split <;> rfl

/-- C4 witness: with concrete nonempty tool names the execution
invocations coincide with each other and with the listing invocation. -/
theorem C4_witness :
    (demoBackend.executeTool (some ("t")) Json.null ProcOutcome.timeout).2 =
      (demoBackend.getToolsList ProcOutcome.timeout).2
    ∧ (demoBackend.executeTool (some ("t")) Json.null ProcOutcome.timeout).2 =
      (demoBackend.executeTool (some ("u")) (Json.str ("x")) ProcOutcome.timeout).2 :=
  ⟨(C4_amended demoBackend ProcOutcome.timeout (some ("t")) (some ("u")) Json.null
      (Json.str ("x"))).2.2.1 rfl,
   (C4_amended demoBackend ProcOutcome.timeout (some ("t")) (some ("u")) Json.null
      (Json.str ("x"))).2.2.2.1 rfl rfl⟩

theorem exceptBind_ok {α β : Type} (a : α) (f : α → Except String β) :
    Except.bind (Except.ok a) f = f a := rfl

theorem assocLookup_set_eq {α : Type} (fs : List (String × α)) (k : String) (v : α) :
    assocLookup (assocSet fs k v) k = some v := by
  induction fs with
  | nil => simp [assocSet, assocLookup]
  | cons p rest ih =>
    obtain ⟨k0, v0⟩ := p
    by_cases hk : k0 = k
    · simp [assocSet, assocLookup, hk]
    · simp only [assocSet, hk, if_false, assocLookup]
      exact ih

theorem assocLookup_set_ne {α : Type} (fs : List (String × α)) (k k' : String) (v : α)
    (h : k' ≠ k) : assocLookup (assocSet fs k v) k' = assocLookup fs k' := by
  induction fs with
  | nil =>
    simp only [assocSet, assocLookup]
    rw [if_neg (fun hc => h hc.symm)]
  | cons p rest ih =>
    obtain ⟨k0, v0⟩ := p
    by_cases hk : k0 = k
    · subst hk
      simp only [assocSet, if_pos rfl, assocLookup]
      rw [if_neg (fun hc => h hc.symm), if_neg (fun hc => h hc.symm)]
    · simp only [assocSet, hk, if_false, assocLookup]
      by_cases hk2 : k0 = k'
      · rw [if_pos hk2, if_pos hk2]
      · rw [if_neg hk2, if_neg hk2]
        exact ih

theorem setSectionKey_ok {fs sf : List (String × Json)} {sec : String} (key : String)
    (v : Json) (h : assocLookup fs sec = some (Json.obj sf)) :
    setSectionKey (Json.obj fs) sec key v =
      .ok (Json.obj (assocSet fs sec (Json.obj (assocSet sf key v)))) := by
  simp [setSectionKey, h]

theorem cfgGetGo_two {fs sf : List (String × Json)} {a b : String} {v : Json} (d : Json)
    (h1 : assocLookup fs a = some (Json.obj sf)) (h2 : assocLookup sf b = some v) :
    cfgGetGo (Json.obj fs) [a, b] d = v := by
  simp [cfgGetGo, h1, h2]

/-- The four environment overrides applied to a configuration whose
server and mcp sections are dicts: the override pass succeeds (given a
parseable port when that variable is set) and the resulting dict holds
every environment-provided value, the port integer-parsed. -/
theorem applyEnvOverrides_spec (fs sf mf : List (String × Json))
    (env : String → Option String)
    (hs : assocLookup fs ("server") = some (Json.obj sf))
    (hm : assocLookup fs ("mcp") = some (Json.obj mf))
    (hport : ∀ v, env ("MCP_SERVER_PORT") = some v → ∃ n, pyInt v = .ok n) :
    ∃ fs2 sf2 mf2, applyEnvOverrides (Json.obj fs) env = .ok (Json.obj fs2)
      ∧ assocLookup fs2 ("server") = some (Json.obj sf2)
      ∧ assocLookup fs2 ("mcp") = some (Json.obj mf2)
      ∧ (∀ v, env ("MCP_SERVER_HOST") = some v →
          assocLookup sf2 ("host") = some (Json.str v))
      ∧ (∀ v n, env ("MCP_SERVER_PORT") = some v → pyInt v = .ok n →
          assocLookup sf2 ("port") = some (Json.num (toString n)))
      ∧ (∀ v, env ("MCP_EXECUTABLE_PATH") = some v →
          assocLookup mf2 ("executable_path") = some (Json.str v))
      ∧ (∀ v, env ("MCP_WORKING_DIR") = some v →
          assocLookup mf2 ("working_directory") = some (Json.str v)) := by
  obtain ⟨c1fs, c1sf, hstep1, hs1, hm1, hostP1⟩ :
      ∃ c1fs c1sf,
        (match env ("MCP_SERVER_HOST") with
          | some v => setSectionKey (Json.obj fs) ("server") ("host") (Json.str v)
          | none => Except.ok (Json.obj fs)) = .ok (Json.obj c1fs)
        ∧ assocLookup c1fs ("server") = some (Json.obj c1sf)
        ∧ assocLookup c1fs ("mcp") = some (Json.obj mf)
        ∧ (∀ v, env ("MCP_SERVER_HOST") = some v →
            assocLookup c1sf ("host") = some (Json.str v)) := by
    cases h1 : env ("MCP_SERVER_HOST") with
    | none => exact ⟨fs, sf, rfl, hs, hm, fun v hv => by simp at hv⟩
    | some v1 =>
      refine ⟨assocSet fs ("server") (Json.obj (assocSet sf ("host") (Json.str v1))),
        assocSet sf ("host") (Json.str v1), setSectionKey_ok _ _ hs,
        assocLookup_set_eq _ _ _, ?_, ?_⟩
      · rw [assocLookup_set_ne _ _ _ _ (by decide)]
        exact hm
      · intro v hv
        injection hv with hv2
        subst hv2
        exact assocLookup_set_eq _ _ _
  obtain ⟨c2fs, c2sf, hstep2, hs2, hm2, hostP2, portP2⟩ :
      ∃ c2fs c2sf,
        (match env ("MCP_SERVER_PORT") with
          | some v => Except.bind (pyInt v)
              (fun n => setSectionKey (Json.obj c1fs) ("server") ("port")
                (Json.num (toString n)))
          | none => Except.ok (Json.obj c1fs)) = .ok (Json.obj c2fs)
        ∧ assocLookup c2fs ("server") = some (Json.obj c2sf)
        ∧ assocLookup c2fs ("mcp") = some (Json.obj mf)
        ∧ (∀ v, env ("MCP_SERVER_HOST") = some v →
            assocLookup c2sf ("host") = some (Json.str v))
        ∧ (∀ v n, env ("MCP_SERVER_PORT") = some v → pyInt v = .ok n →
            assocLookup c2sf ("port") = some (Json.num (toString n))) := by
    cases h2 : env ("MCP_SERVER_PORT") with
    | none =>
      exact ⟨c1fs, c1sf, rfl, hs1, hm1, hostP1, fun v n hv _ => by simp at hv⟩
    | some v2 =>
      obtain ⟨n, hn⟩ := hport v2 h2
      refine ⟨assocSet c1fs ("server")
          (Json.obj (assocSet c1sf ("port") (Json.num (toString n)))),
        assocSet c1sf ("port") (Json.num (toString n)), ?_,
        assocLookup_set_eq _ _ _, ?_, ?_, ?_⟩
      · show Except.bind (pyInt v2)
            (fun n => setSectionKey (Json.obj c1fs) ("server") ("port")
              (Json.num (toString n))) =
          Except.ok (Json.obj (assocSet c1fs ("server")
            (Json.obj (assocSet c1sf ("port") (Json.num (toString n))))))
        rw [hn, exceptBind_ok]
        exact setSectionKey_ok _ _ hs1
      · rw [assocLookup_set_ne _ _ _ _ (by decide)]
        exact hm1
      · intro v hv
        rw [assocLookup_set_ne _ _ _ _ (by decide)]
        exact hostP1 v hv
      · intro v n2 hv hn2
        injection hv with hv2
        subst hv2
        rw [hn] at hn2
        injection hn2 with hn3
        subst hn3
        exact assocLookup_set_eq _ _ _
  obtain ⟨c3fs, c3mf, hstep3, hs3, hm3, exeP3⟩ :
      ∃ c3fs c3mf,
        (match env ("MCP_EXECUTABLE_PATH") with
          | some v => setSectionKey (Json.obj c2fs) ("mcp") ("executable_path") (Json.str v)
          | none => Except.ok (Json.obj c2fs)) = .ok (Json.obj c3fs)
        ∧ assocLookup c3fs ("server") = some (Json.obj c2sf)
        ∧ assocLookup c3fs ("mcp") = some (Json.obj c3mf)
        ∧ (∀ v, env ("MCP_EXECUTABLE_PATH") = some v →
            assocLookup c3mf ("executable_path") = some (Json.str v)) := by
    cases h3 : env ("MCP_EXECUTABLE_PATH") with
    | none => exact ⟨c2fs, mf, rfl, hs2, hm2, fun v hv => by simp at hv⟩
    | some v3 =>
      refine ⟨assocSet c2fs ("mcp")
          (Json.obj (assocSet mf ("executable_path") (Json.str v3))),
        assocSet mf ("executable_path") (Json.str v3), setSectionKey_ok _ _ hm2, ?_,
        assocLookup_set_eq _ _ _, ?_⟩
      · rw [assocLookup_set_ne _ _ _ _ (by decide)]
        exact hs2
      · intro v hv
        injection hv with hv2
        subst hv2
        exact assocLookup_set_eq _ _ _
  obtain ⟨c4fs, c4mf, hstep4, hs4, hm4, exeP4, wdP4⟩ :
      ∃ c4fs c4mf,
        (match env ("MCP_WORKING_DIR") with
          | some v => setSectionKey (Json.obj c3fs) ("mcp") ("working_directory")
              (Json.str v)
          | none => Except.ok (Json.obj c3fs)) = .ok (Json.obj c4fs)
        ∧ assocLookup c4fs ("server") = some (Json.obj c2sf)
        ∧ assocLookup c4fs ("mcp") = some (Json.obj c4mf)
        ∧ (∀ v, env ("MCP_EXECUTABLE_PATH") = some v →
            assocLookup c4mf ("executable_path") = some (Json.str v))
        ∧ (∀ v, env ("MCP_WORKING_DIR") = some v →
            assocLookup c4mf ("working_directory") = some (Json.str v)) := by
    cases h4 : env ("MCP_WORKING_DIR") with
    | none => exact ⟨c3fs, c3mf, rfl, hs3, hm3, exeP3, fun v hv => by simp at hv⟩
    | some v4 =>
      refine ⟨assocSet c3fs ("mcp")
          (Json.obj (assocSet c3mf ("working_directory") (Json.str v4))),
        assocSet c3mf ("working_directory") (Json.str v4), setSectionKey_ok _ _ hm3, ?_,
        assocLookup_set_eq _ _ _, ?_, ?_⟩
      · rw [assocLookup_set_ne _ _ _ _ (by decide)]
        exact hs3
      · intro v hv
        rw [assocLookup_set_ne _ _ _ _ (by decide)]
        exact exeP3 v hv
      · intro v hv
        injection hv with hv2
        subst hv2
        exact assocLookup_set_eq _ _ _
  refine ⟨c4fs, c2sf, c4mf, ?_, hs4, hm4, hostP2, portP2, exeP4, wdP4⟩
  unfold applyEnvOverrides
  rw [hstep1, exceptBind_ok]
  rw [hstep2, exceptBind_ok]
  rw [hstep3, exceptBind_ok]
  exact hstep4

/-- C6 counterexample: with the file missing and the port variable set to
a non-integer string, configuration construction raises from int() — so
configuration loading can fail startup. -/
theorem C6_counterexample :
    MCPConfig.init FileOutcome.missing
      (fun k => if k = "MCP_SERVER_PORT" then some ("abc") else none) =
      .error ("invalid literal for int() with base 10: abc") := rfl

/-- C6 (amended): a missing or unreadable file substitutes exactly the
documented defaults (never a partial merge), and construction then
succeeds for any environment whose port variable, if set, parses as an
integer; only a non-integer MCP_SERVER_PORT can make startup fail. -/
theorem C6_defaults :
    loadConfig FileOutcome.missing = defaultConfig
    ∧ loadConfig FileOutcome.readFailure = defaultConfig
    ∧ (∀ (file : FileOutcome) (env : String → Option String),
        (file = FileOutcome.missing ∨ file = FileOutcome.readFailure) →
        (∀ v, env ("MCP_SERVER_PORT") = some v → ∃ n, pyInt v = .ok n) →
        ∃ cfg, MCPConfig.init file env = .ok cfg) := by
  refine ⟨rfl, rfl, ?_⟩
  intro file env hfile hport
  have hload : loadConfig file = defaultConfig := by
    rcases hfile with h | h <;> rw [h] <;> rfl
  unfold MCPConfig.init
  rw [hload]
  have hd : defaultConfig = Json.obj [
      ("server", Json.obj [("host", Json.str ("0.0.0.0")), ("port", Json.num ("8080")),
        ("debug", Json.bool false)]),
      ("mcp", Json.obj [("executable_path", Json.str ("./mcp_demo")),
        ("working_directory", Json.str (".")), ("timeout", Json.num ("30"))]),
      ("logging", Json.obj [("level", Json.str ("INFO"))]),
      ("tools", Json.obj [("discovery_enabled", Json.bool true)])] := rfl
  rw [hd]
  obtain ⟨fs2, sf2, mf2, hok, _⟩ := applyEnvOverrides_spec
    [("server", Json.obj [("host", Json.str ("0.0.0.0")), ("port", Json.num ("8080")),
        ("debug", Json.bool false)]),
      ("mcp", Json.obj [("executable_path", Json.str ("./mcp_demo")),
        ("working_directory", Json.str (".")), ("timeout", Json.num ("30"))]),
      ("logging", Json.obj [("level", Json.str ("INFO"))]),
      ("tools", Json.obj [("discovery_enabled", Json.bool true)])]
    [("host", Json.str ("0.0.0.0")), ("port", Json.num ("8080")),
      ("debug", Json.bool false)]
    [("executable_path", Json.str ("./mcp_demo")),
      ("working_directory", Json.str (".")), ("timeout", Json.num ("30"))]
    env rfl rfl hport
  exact ⟨_, hok⟩

/-- C6 witness: with the file missing and a numeric port value in the
environment, construction succeeds. -/
theorem C6_witness :
    ∃ cfg, MCPConfig.init FileOutcome.missing
      (fun k => if k = "MCP_SERVER_PORT" then some ("9090") else none) = .ok cfg := by
  apply C6_defaults.2.2 FileOutcome.missing _ (Or.inl rfl)
  intro v hv
  have hv2 : some ("9090") = some v := hv
  injection hv2 with hv3
  subst hv3
  exact ⟨9090, rfl⟩

/-- C7: for each of the four overridable keys, when the corresponding
environment variable is set before construction, the merged configuration
(read through the dotted accessor) holds the environment value, the port
integer-parsed, overriding whatever the file provided in its server and
mcp sections. -/
theorem C7_env_overrides :
    ∀ (fs sf mf : List (String × Json)) (env : String → Option String),
      assocLookup fs ("server") = some (Json.obj sf) →
      assocLookup fs ("mcp") = some (Json.obj mf) →
      (∀ v, env ("MCP_SERVER_PORT") = some v → ∃ n, pyInt v = .ok n) →
      ∃ cfg2, applyEnvOverrides (Json.obj fs) env = .ok cfg2
        ∧ (∀ v, env ("MCP_SERVER_HOST") = some v →
            cfgGet cfg2 ("server.host") Json.null = Json.str v)
        ∧ (∀ v n, env ("MCP_SERVER_PORT") = some v → pyInt v = .ok n →
            cfgGet cfg2 ("server.port") Json.null = Json.num (toString n))
        ∧ (∀ v, env ("MCP_EXECUTABLE_PATH") = some v →
            cfgGet cfg2 ("mcp.executable_path") Json.null = Json.str v)
        ∧ (∀ v, env ("MCP_WORKING_DIR") = some v →
            cfgGet cfg2 ("mcp.working_directory") Json.null = Json.str v) := by
  intro fs sf mf env hs hm hport
  obtain ⟨fs2, sf2, mf2, hok, hs2, hm2, hostP, portP, exeP, wdP⟩ :=
    applyEnvOverrides_spec fs sf mf env hs hm hport
  refine ⟨Json.obj fs2, hok, ?_, ?_, ?_, ?_⟩
  · intro v hv
    have hred : cfgGet (Json.obj fs2) ("server.host") Json.null =
        cfgGetGo (Json.obj fs2) ["server", "host"] Json.null := rfl
    rw [hred]
    exact cfgGetGo_two _ hs2 (hostP v hv)
  · intro v n hv hn
    have hred : cfgGet (Json.obj fs2) ("server.port") Json.null =
        cfgGetGo (Json.obj fs2) ["server", "port"] Json.null := rfl
    rw [hred]
    exact cfgGetGo_two _ hs2 (portP v n hv hn)
  · intro v hv
    have hred : cfgGet (Json.obj fs2) ("mcp.executable_path") Json.null =
        cfgGetGo (Json.obj fs2) ["mcp", "executable_path"] Json.null := rfl
    rw [hred]
    exact cfgGetGo_two _ hm2 (exeP v hv)
  · intro v hv
    have hred : cfgGet (Json.obj fs2) ("mcp.working_directory") Json.null =
        cfgGetGo (Json.obj fs2) ["mcp", "working_directory"] Json.null := rfl
    rw [hred]
    exact cfgGetGo_two _ hm2 (wdP v hv)

/-- C7 witness: with the default file configuration and all four
variables set, the merged configuration holds the four environment
values, the port integer-parsed. -/
theorem C7_witness :
    ∃ cfg2, applyEnvOverrides (Json.obj [
        ("server", Json.obj [("host", Json.str ("0.0.0.0")), ("port", Json.num ("8080")),
          ("debug", Json.bool false)]),
        ("mcp", Json.obj [("executable_path", Json.str ("./mcp_demo")),
          ("working_directory", Json.str (".")), ("timeout", Json.num ("30"))]),
        ("logging", Json.obj [("level", Json.str ("INFO"))]),
        ("tools", Json.obj [("discovery_enabled", Json.bool true)])])
      (fun k =>
        if k = "MCP_SERVER_HOST" then some ("example.org")
        else if k = "MCP_SERVER_PORT" then some ("9090")
        else if k = "MCP_EXECUTABLE_PATH" then some ("/opt/mcp")
        else if k = "MCP_WORKING_DIR" then some ("/srv") else none) = .ok cfg2
      ∧ cfgGet cfg2 ("server.host") Json.null = Json.str ("example.org")
      ∧ cfgGet cfg2 ("server.port") Json.null = Json.num ("9090")
      ∧ cfgGet cfg2 ("mcp.executable_path") Json.null = Json.str ("/opt/mcp")
      ∧ cfgGet cfg2 ("mcp.working_directory") Json.null = Json.str ("/srv") := by
  obtain ⟨cfg2, hok, hostP, portP, exeP, wdP⟩ := C7_env_overrides
    [("server", Json.obj [("host", Json.str ("0.0.0.0")), ("port", Json.num ("8080")),
        ("debug", Json.bool false)]),
      ("mcp", Json.obj [("executable_path", Json.str ("./mcp_demo")),
        ("working_directory", Json.str (".")), ("timeout", Json.num ("30"))]),
      ("logging", Json.obj [("level", Json.str ("INFO"))]),
      ("tools", Json.obj [("discovery_enabled", Json.bool true)])]
    [("host", Json.str ("0.0.0.0")), ("port", Json.num ("8080")),
      ("debug", Json.bool false)]
    [("executable_path", Json.str ("./mcp_demo")),
      ("working_directory", Json.str (".")), ("timeout", Json.num ("30"))]
    (fun k =>
      if k = "MCP_SERVER_HOST" then some ("example.org")
      else if k = "MCP_SERVER_PORT" then some ("9090")
      else if k = "MCP_EXECUTABLE_PATH" then some ("/opt/mcp")
      else if k = "MCP_WORKING_DIR" then some ("/srv") else none)
    rfl rfl
    (fun v hv => by
      have hv2 : some ("9090") = some v := hv
      injection hv2 with hv3
      subst hv3
      exact ⟨9090, rfl⟩)
  exact ⟨cfg2, hok, hostP ("example.org") rfl, portP ("9090") 9090 rfl rfl,
    exeP ("/opt/mcp") rfl, wdP ("/srv") rfl⟩

/-- C2 counterexample: the text contains a single well-formed JSON object
with a tools key (on one line) embedded among non-JSON lines, yet the
scraper returns the static fallback, not that object: the scanner only
tests completion on lines after the opening one, so a one-line object is
never recognized. -/
theorem C2_counterexample :
    extract_json_from_output ("hello\n\x7b\"tools\": []\x7d\nworld") ("tools/list") =
      .ok fallbackToolsJson
    ∧ fallbackToolsJson ≠ Json.obj [("tools", Json.arr [])] := by
  constructor
  · rfl
  · intro h
    simp [fallbackToolsJson] at h

/-- C2 (amended): a well-formed JSON object with a tools key embedded
among non-JSON lines is returned exactly, provided it spans at least two
lines; when no qualifying segment exists anywhere the static fallback is
returned (six-tool list for listings, generic failure payload otherwise);
and the scraper never raises, always producing some dict. -/
theorem C2_amended :
    (∀ (output : String) (pre : List Line) (b0 : Line) (bt : List Line) (post : List Line)
        (j : Json),
      linesOf output = pre ++ (b0 :: bt) ++ post →
      (∀ l ∈ pre, lineStartsBrace l = false) →
      lineStartsBrace b0 = true →
      bt ≠ [] →
      (∀ l ∈ bt, lineStartsBrace l = false) →
      (∀ k, k < bt.length - 1 → lineEndsBrace (bt.getD k []) = true →
        (jsonLoads (concatLines (b0 :: bt.take (k + 1)))).isNone = true) →
      lineEndsBrace (bt.getD (bt.length - 1) []) = true →
      jsonLoads (concatLines (b0 :: bt)) = some j →
      pyIn ("tools") j = .ok true →
      extract_json_from_output output ("tools/list") = .ok j)
    ∧ (∀ (output : String) (requestType : String),
      (∀ i, i < (linesOf output).length → ∀ n, n < (linesOf output).length →
        qualifyingSeg (linesOf output) requestType i n = false) →
      extract_json_from_output output requestType =
        .ok (if requestType = "tools/list" then fallbackToolsJson else genericCallFailure))
    ∧ (∀ (output : String) (requestType : String),
      ∃ fs, extract_json_from_output output requestType = .ok (Json.obj fs)) := by
  refine ⟨?_, ?_, ?_⟩
  · intro output pre b0 bt post j hsplit hpre hb0 hne htail hmid hlast hparse hkey
    have hshape : shapeMatch ("tools/list") j = .ok true := by
      unfold shapeMatch
      rw [if_pos rfl]
      exact hkey
    have hscan : extractScanGo ("tools/list") (linesOf output) false [] = .ok (some j) := by
      rw [hsplit, List.append_assoc]
      rw [extractScanGo_skip ("tools/list") pre ((b0 :: bt) ++ post) [] hpre]
      have hstep : extractScanGo ("tools/list") ((b0 :: bt) ++ post) false [] =
          extractScanGo ("tools/list") (bt ++ post) true [b0] := by
        simp only [List.cons_append, extractScanGo, hb0, if_true, List.append_eq]
      rw [hstep]
      apply extractScanGo_run ("tools/list") bt [b0] post j hne htail _ hlast _ hshape
      · intro k hk hkend
        exact hmid k hk hkend
      · exact hparse
    unfold extract_json_from_output
    rw [hscan]
  · intro output requestType hq
    have hscan : extractScanGo requestType (linesOf output) false [] = .ok none :=
      extractScanGo_noQual requestType (linesOf output) hq (linesOf output) [] false []
        (by simp) (by simp)
    have hval : extract_json_from_output output requestType =
        if requestType = "tools/list" then .ok fallbackToolsJson else .ok genericCallFailure := by
      unfold extract_json_from_output
      rw [hscan]
    rw [hval]
    split
    · rfl
    · rfl
  · intro output requestType
    exact extract_json_obj output requestType

/-- C2 witness: a two-line JSON object among garbage lines is extracted
exactly; a text with no JSON at all yields the generic call fallback. -/
theorem C2_witness :
    extract_json_from_output ("x\n\x7b\n\"tools\": 1\x7d\ny") ("tools/list") =
      .ok (Json.obj [("tools", Json.num ("1"))])
    ∧ extract_json_from_output ("no json") ("tools/call") = .ok genericCallFailure := by
  constructor
  · exact C2_amended.1 ("x\n\x7b\n\"tools\": 1\x7d\ny") ["x".data] ("\x7b".data)
      [("\"tools\": 1\x7d").data] [("y").data] (Json.obj [("tools", Json.num ("1"))])
      rfl (by decide) rfl (by decide) (by decide) (by decide) rfl rfl rfl
  · exact C2_amended.2.1 ("no json") ("tools/call") (by decide)

/-- C5: backend construction resolves the executable path at construction
time (absolute path as-is, relative path joined to the resolved working
directory) and fails if and only if the resolved path does not exist;
when it exists, construction succeeds with exactly the resolved fields,
independent of any file content (the filesystem is consulted only through
the existence test). -/
theorem C5_construction :
    ∀ (config : Json) (resolve : String → String) (pathExists : String → Bool)
      (ep wd : String),
      cfgGet config ("mcp.executable_path") (Json.str ("./mcp_demo")) = Json.str ep →
      cfgGet config ("mcp.working_directory") (Json.str (".")) = Json.str wd →
      ((∃ e, MCPBackend.init config resolve pathExists = .error e) ↔
        pathExists (if isAbsolutePath ep then ep else pathJoin (resolve wd) ep) = false)
      ∧ (pathExists (if isAbsolutePath ep then ep else pathJoin (resolve wd) ep) = true →
          MCPBackend.init config resolve pathExists =
            .ok ⟨if isAbsolutePath ep then ep else pathJoin (resolve wd) ep, resolve wd,
              cfgGet config ("mcp.timeout") (Json.num ("30"))⟩) := by
  intro config resolve pathExists ep wd hep hwd
  unfold MCPBackend.init
  rw [hep, hwd]
  cases hpe : pathExists (if isAbsolutePath ep then ep else pathJoin (resolve wd) ep) with
  | false =>
    constructor
    · simp only [hpe, Bool.false_eq_true, if_false]
      constructor
      · intro _; trivial
      · intro _; exact ⟨_, rfl⟩
    · intro h
      exact absurd h (by simp [hpe])
  | true =>
    constructor
    · simp only [hpe, if_true]
      constructor
      · rintro ⟨e, he⟩
        exact absurd he (by simp)
      · intro h; exact absurd h (by simp)
    · intro _
      simp only [hpe, if_true]

/-- C5 witness: with the default configuration, identity resolution and
a filesystem lacking the resolved path, construction errors; with the
path present it succeeds with the resolved fields. -/
theorem C5_witness :
    (∃ e, MCPBackend.init defaultConfig (fun s => s) (fun _ => false) = .error e)
    ∧ MCPBackend.init defaultConfig (fun s => s) (fun _ => true) =
        .ok ⟨"././mcp_demo", ".", Json.num ("30")⟩ := by
  constructor
  · exact (C5_construction defaultConfig (fun s => s) (fun _ => false) ("./mcp_demo") (".")
      rfl rfl).1.mpr rfl
  · exact (C5_construction defaultConfig (fun s => s) (fun _ => true) ("./mcp_demo") (".")
      rfl rfl).2 rfl

theorem assocLookup_mem {α : Type} {fs : List (String × α)} {k : String} {v : α}
    (h : assocLookup fs k = some v) : k ∈ fs.map Prod.fst := by
  induction fs with
  | nil => simp [assocLookup] at h
  | cons p rest ih =>
    obtain ⟨k0, v0⟩ := p
    by_cases hk : k0 = k
    · simp [hk]
    · simp only [assocLookup, hk, if_false] at h
      simp [ih h]

theorem assocLookup_not_mem {α : Type} {fs : List (String × α)} {k : String}
    (h : k ∉ fs.map Prod.fst) : assocLookup fs k = none := by
  induction fs with
  | nil => rfl
  | cons p rest ih =>
    obtain ⟨k0, v0⟩ := p
    simp only [List.map_cons, List.mem_cons] at h
    push_neg at h
    simp only [assocLookup, show k0 ≠ k from fun hc => h.1 hc.symm, if_false]
    exact ih h.2

/-- C8 counterexample: looking up the empty tool name fails, but with the
message Tool name is required, which does not contain Unknown tool. -/
theorem C8_counterexample :
    (getToolSchema (some (""))).1 = .error ("Tool name is required")
    ∧ hasSubstrL ("Unknown tool").data ("Tool name is required").data = false := ⟨rfl, rfl⟩

/-- C8 (amended): schema lookup succeeds exactly for the six known tool
names; any other nonempty name fails with Unknown tool, while an empty or
missing name fails with Tool name is required; the expr_par_load schema
requires exactly filename, coopMat and repIndicators. -/
theorem C8_schema_lookup :
    (∀ n, (∃ s, (getToolSchema (some n)).1 = .ok s) ↔ n ∈ knownToolNames)
    ∧ (∀ n, n ∉ knownToolNames → n ≠ "" →
        (getToolSchema (some n)).1 = .error ("Unknown tool: " ++ n))
    ∧ (getToolSchema (some (""))).1 = .error ("Tool name is required")
    ∧ (getToolSchema none).1 = .error ("Tool name is required")
    ∧ (∃ s, (getToolSchema (some ("expr_par_load"))).1 = .ok s
        ∧ cfgGet s ("inputSchema.required") Json.null =
            Json.arr [Json.str ("filename"), Json.str ("coopMat"),
              Json.str ("repIndicators")]) := by
  refine ⟨?_, ?_, rfl, rfl, ⟨_, rfl, rfl⟩⟩
  · intro n
    constructor
    · rintro ⟨s, hs⟩
      unfold getToolSchema at hs
      by_cases hne : n = ""
      · subst hne
        simp [pyFalsyName] at hs
      · have hfalsy : pyFalsyName (some n) = false := by simp [pyFalsyName, hne]
        rw [hfalsy] at hs
        simp only [Bool.false_eq_true, if_false] at hs
        cases hl : assocLookup schemasTable n with
        | none => rw [hl] at hs; simp at hs
        | some s2 =>
          have hmem := assocLookup_mem hl
          have hnames : schemasTable.map Prod.fst = knownToolNames := rfl
          rw [hnames] at hmem
          exact hmem
    · intro hmem
      simp only [knownToolNames, List.mem_cons, List.not_mem_nil, or_false] at hmem
      rcases hmem with h | h | h | h | h | h <;> subst h <;> exact ⟨_, rfl⟩
  · intro n hnot hne
    have hfalsy : pyFalsyName (some n) = false := by
      simp [pyFalsyName, hne]
    have hnone : assocLookup schemasTable n = none := by
      apply assocLookup_not_mem
      have hnames : schemasTable.map Prod.fst = knownToolNames := rfl
      rw [hnames]
      exact hnot
    unfold getToolSchema
    rw [hfalsy]
    simp only [Bool.false_eq_true, if_false, hnone]

/-- C8 witness: the name unknown_tool_xyz is not among the six and fails
with the Unknown tool message; expr_par_load is among the six. -/
theorem C8_witness :
    (getToolSchema (some ("unknown_tool_xyz"))).1 =
      .error ("Unknown tool: unknown_tool_xyz")
    ∧ ("expr_par_load" ∈ knownToolNames) := by
  constructor
  · exact C8_schema_lookup.2.1 ("unknown_tool_xyz") (by decide) (by decide)
  · exact (C8_schema_lookup.1 ("expr_par_load")).mp ⟨_, rfl⟩

/-- C9: for every backend subprocess invocation, a timeout kills the
process (the invocation record is marked killed) and reports the timeout
failure; a nonzero exit reports a failure carrying the captured stderr,
or the Unknown error placeholder when stderr is empty, and the process is
not killed. -/
theorem C9_failure_reporting :
    ∀ (b : MCPBackend) (n : Option String) (args : Json),
      pyFalsyName n = false →
      ((b.getToolsList ProcOutcome.timeout).1 = .error ("MCP backend timeout")
        ∧ (b.getToolsList ProcOutcome.timeout).2 = [b.spawnInvocation true]
        ∧ (b.executeTool n args ProcOutcome.timeout).1 = .error ("MCP backend timeout")
        ∧ (b.executeTool n args ProcOutcome.timeout).2 = [b.spawnInvocation true])
      ∧ (∀ (rc : Int) (out err : String), rc ≠ 0 →
          (b.getToolsList (ProcOutcome.exited rc out err)).1 =
            .error ("MCP backend failed: " ++ (if err = "" then "Unknown error" else err))
          ∧ (b.getToolsList (ProcOutcome.exited rc out err)).2 = [b.spawnInvocation false]
          ∧ (b.executeTool n args (ProcOutcome.exited rc out err)).1 =
            .error ("MCP backend failed: " ++ (if err = "" then "Unknown error" else err))
          ∧ (b.executeTool n args (ProcOutcome.exited rc out err)).2 =
            [b.spawnInvocation false]) := by
  intro b n args hn
  constructor
  · refine ⟨rfl, rfl, ?_, ?_⟩
    · simp [MCPBackend.executeTool, hn]
    · simp [MCPBackend.executeTool, hn]
  · intro rc out err hrc
    refine ⟨?_, ?_, ?_, ?_⟩
    · simp [MCPBackend.getToolsList, hrc]
    · simp only [MCPBackend.getToolsList]
      split <;> rfl
    · simp [MCPBackend.executeTool, hn, hrc]
    · simp only [MCPBackend.executeTool, hn, Bool.false_eq_true, if_false]
      split <;> rfl

/-- C9 witness: concrete timeout and nonzero-exit outcomes produce the
documented failures, with the empty stderr replaced by the placeholder. -/
theorem C9_witness :
    (demoBackend.getToolsList ProcOutcome.timeout).1 = .error ("MCP backend timeout")
    ∧ (demoBackend.executeTool (some ("t")) Json.null
        (ProcOutcome.exited 2 "" "")).1 = .error ("MCP backend failed: Unknown error")
    ∧ (demoBackend.executeTool (some ("t")) Json.null
        (ProcOutcome.exited 2 "" "boom")).1 = .error ("MCP backend failed: boom") := by
  refine ⟨(C9_failure_reporting demoBackend (some ("t")) Json.null rfl).1.1, ?_, ?_⟩
  · exact ((C9_failure_reporting demoBackend (some ("t")) Json.null rfl).2 2 "" ""
      (by decide)).2.2.1
  · exact ((C9_failure_reporting demoBackend (some ("t")) Json.null rfl).2 2 "" ("boom")
      (by decide)).2.2.1
